import Mathlib

/-!
# duo_cosign: persona dispatch and per-persona output protocol

A shallow embedding of `duo_cosign.c`.  A C `char` is a Lean `Char`, a C string
is the list of its characters before the terminating NUL, standard input and
standard output are lists of characters.  Diagnostic output written to `stderr`
is not part of the state, and `strdup` is taken to succeed.
-/

namespace DuoCosign

/-- The contents of a C string: its characters, terminating NUL excluded. -/
abbrev CStr := List Char

/-- The NUL character that terminates a C string. -/
def NUL : Char := Char.ofNat 0

/-- Instrumentation: the calls a run makes to code outside `duo_cosign.c`,
and the handler the dispatcher selects. -/
inductive Event where
  | curl_global_init (rc : Int)
  | curl_global_cleanup
  | dc_ping
  | dc_check
  | dc_preauth (user : CStr)
  | dc_auth (user factor data : CStr)
  | exec_fn (exec_name : CStr)
  deriving DecidableEq, Repr

/-- The process state the program acts on: what is left to read on `stdin`,
what has been written to `stdout`, and the calls recorded so far. -/
structure State where
  stdin : List Char
  stdout : List Char
  trace : List Event
  deriving DecidableEq, Repr

/-- How a C function call ends: it returns a value, the process leaves through
`exit( code )`, the process is killed by `abort()` (also a failed `assert`), or
the behaviour is undefined (an access outside an array). -/
inductive Outcome (α : Type) where
  | ret (a : α) (st : State)
  | exit (code : Int) (st : State)
  | abort (st : State)
  | undefined
  deriving DecidableEq, Repr

/-- Sequencing of calls: the continuation runs only after a normal return. -/
def Outcome.bind {α β : Type} (o : Outcome α) (f : α → State → Outcome β) : Outcome β :=
  match o with
  | .ret a st => f a st
  | .exit code st => .exit code st
  | .abort st => .abort st
  | .undefined => .undefined

/-- Output of `printf`: the formatted characters are appended to `stdout`. -/
def printf (s : List Char) (st : State) : State :=
  { st with stdout := st.stdout ++ s }

/-- Record a call in the trace. -/
def record (e : Event) (st : State) : State :=
  { st with trace := st.trace ++ [e] }

/-! ## Library functions used by the input reader -/

/-- The characters `fgets` stores when it may still store `n` of them: it stops
after a newline, at end of file, or when `n` characters are stored.  Returns the
stored characters and the rest of the stream. -/
def fgetsChars : Nat → List Char → List Char × List Char
  | 0, s => ([], s)
  | _ + 1, [] => ([], [])
  | n + 1, c :: s =>
    if c = '\n' then ([c], s)
    else ((c :: (fgetsChars n s).1), (fgetsChars n s).2)

/-- Model of `fgets( buf, size, stdin )`: `none` is the NULL return (end of
file with nothing read); otherwise the buffer contents written, terminating
NUL included, and the rest of the stream.  At most `size - 1` characters are
read. -/
def fgets (size : Nat) (stdin : List Char) : Option (List Char × List Char) :=
  match fgetsChars (size - 1) stdin with
  | ([], _) => none
  | (b, rest) => some (b ++ [NUL], rest)

/-- Model of `strlen`: the number of characters before the first NUL. -/
def strlen (buf : List Char) : Nat :=
  (buf.takeWhile (fun c => c != NUL)).length

/-- Model of `strdup`: a copy of the characters before the first NUL. -/
def strdup (buf : List Char) : CStr :=
  buf.takeWhile (fun c => c != NUL)

/-- Embedding of `dc_read_input_line` (duo_cosign.c:52-77). -/
def dc_read_input_line (st : State) : Outcome CStr :=
  match fgets 512 st.stdin with
  | none => .exit 2 st
  | some (buf, rest) =>
    let st1 := { st with stdin := rest }
    let len := strlen buf
    if len = 0 then
      -- `buf[ len - 1 ]` is `buf[ -1 ]`: outside the array
      .undefined
    else if buf.getD (len - 1) NUL != '\n' then
      .exit 2 st1
    else
      .ret (strdup (buf.set (len - 1) NUL)) st1

/-! ## Declarations of the headers `duo_cosign_api.h`, `duo_cosign_cfg.h`,
`duo_cosign_json.h` -/

/-- Modelled from the spec: the enumeration `dc_status_t` of `duo_cosign_api.h`
is missing from the sources; the enumerators are the ones `duo_cosign.c` names,
and `other` stands for every further status. -/
inductive dc_status_t where
  | DC_STATUS_OK
  | DC_STATUS_FAIL
  | DC_STATUS_AUTH_REQUIRED
  | DC_STATUS_AUTH_PENDING
  | DC_STATUS_USER_ALLOWED
  | DC_STATUS_USER_DENIED
  | DC_STATUS_USER_NOT_ENROLLED
  | other (code : Int)
  deriving DecidableEq, Repr

/-- Modelled from the spec: the configuration `dc_cfg_entry_t` of
`duo_cosign_cfg.h` is missing from the sources; it is a parsed list of named
configuration entries. -/
abbrev dc_cfg_entry_t := List (CStr × CStr)

/-- Modelled from the spec: the device record of `duo_cosign_api.h` is missing
from the sources; it carries an id, a display name and the supported factors. -/
structure dc_device_t where
  id : CStr
  display_name : CStr
  factors : List CStr
  deriving DecidableEq, Repr

/-- The request `dc_auth_t` filled in by `dc_exec_auth`. -/
structure dc_auth_t where
  user : CStr
  factor : CStr
  data : CStr
  deriving DecidableEq, Repr

/-- The part of `dc_auth_result_t` that reaches `stdout`: the transaction id,
`none` for a NULL pointer.  (`status` and `status_msg` only reach `stderr`.) -/
structure dc_auth_result_t where
  txid : Option CStr
  deriving DecidableEq, Repr

/-- The part of `dc_preauth_result_t` that `dc_exec_preauth` reads. -/
structure dc_preauth_result_t where
  devices : List dc_device_t
  deriving DecidableEq, Repr

/-- The collaborators of `duo_cosign.c`, whose code is in other files: the
remote-service calls, the JSON serializer, the configuration reader, the
network-library initialisation, and the macros of the missing headers.  A
`char *` result that may be NULL is an `Option`. -/
structure Env where
  /-- The built-in default factor name, macro `_DC_FACTOR_NAME`. -/
  _DC_FACTOR_NAME : CStr
  /-- The configured factor name, macro `DC_CFG_FACTOR_NAME( cfg )`. -/
  DC_CFG_FACTOR_NAME : dc_cfg_entry_t → Option CStr
  /-- The `int` value of each status enumerator. -/
  status_code : dc_status_t → Int
  dc_ping : dc_cfg_entry_t → dc_status_t × Int
  dc_check : dc_cfg_entry_t → dc_status_t × Int
  dc_preauth : dc_cfg_entry_t → CStr → dc_status_t × dc_preauth_result_t
  dc_auth : dc_cfg_entry_t → dc_auth_t → dc_status_t × dc_auth_result_t
  dc_device_list_json_serialize : List dc_device_t → Option CStr
  dc_get_cfg_path : CStr
  dc_cfg_read : CStr → Int × dc_cfg_entry_t
  curl_global_init : Int

/-! ## The persona handlers -/

/-- Mode flag `DC_EXEC_MODE_DEFAULT` (duo_cosign.c:80). -/
def DC_EXEC_MODE_DEFAULT : Int := 0

/-- Mode flag `DC_EXEC_MODE_USERFACTOR = (1 << 0)` (duo_cosign.c:81). -/
def DC_EXEC_MODE_USERFACTOR : Int := 1 <<< 0

/-- Mode flags `DC_EXEC_MODE_PREAUTH_DEFAULT` (duo_cosign.c:83-84). -/
def DC_EXEC_MODE_PREAUTH_DEFAULT : Int :=
  Int.lor DC_EXEC_MODE_DEFAULT DC_EXEC_MODE_USERFACTOR

/-- The factor name printed as a status line: the configured one, or
`_DC_FACTOR_NAME` when `DC_CFG_FACTOR_NAME( cfg )` is NULL. -/
def factor_name_or_default (env : Env) (cfg : dc_cfg_entry_t) : CStr :=
  match env.DC_CFG_FACTOR_NAME cfg with
  | some factor_name => factor_name
  | none => env._DC_FACTOR_NAME

/-- Output of `printf( "%ld\n", tstamp )`. -/
def fmt_ld (tstamp : Int) : List Char :=
  (toString tstamp).toList ++ ['\n']

/-- Embedding of `dc_exec_ping` (duo_cosign.c:86-99). -/
def dc_exec_ping (env : Env) (_argv : List CStr) (cfg : dc_cfg_entry_t) (_flags : Int)
    (st : State) : Outcome Int :=
  let st1 := record .dc_ping st
  if (env.dc_ping cfg).1 ≠ .DC_STATUS_OK then
    .exit 2 st1
  else
    .ret (env.status_code .DC_STATUS_OK) (printf (fmt_ld (env.dc_ping cfg).2) st1)

/-- Embedding of `dc_exec_check` (duo_cosign.c:101-114). -/
def dc_exec_check (env : Env) (_argv : List CStr) (cfg : dc_cfg_entry_t) (_flags : Int)
    (st : State) : Outcome Int :=
  let st1 := record .dc_check st
  if (env.dc_check cfg).1 ≠ .DC_STATUS_OK then
    .exit 2 st1
  else
    .ret (env.status_code .DC_STATUS_OK) (printf (fmt_ld (env.dc_check cfg).2) st1)

/-- Embedding of `dc_exec_preauth` (duo_cosign.c:116-177).  `argv` holds the
`argc` arguments; `assert( argc >= 1 )` fails on the empty list. -/
def dc_exec_preauth (env : Env) (argv : List CStr) (cfg : dc_cfg_entry_t) (flags : Int)
    (st : State) : Outcome Int :=
  match argv with
  | [] => .abort st
  | user :: _ =>
    let st1 := record (.dc_preauth user) st
    match env.dc_preauth cfg user with
    | (.DC_STATUS_AUTH_REQUIRED, presult) =>
      match env.dc_device_list_json_serialize presult.devices with
      | none => .ret 1 (printf "Access denied\n".toList st1)
      | some device_json =>
        let st2 := printf ("$duo_devices_json=".toList ++ device_json ++ ['\n']) st1
        if Int.land flags DC_EXEC_MODE_USERFACTOR ≠ 0 then
          .ret 0 (printf (factor_name_or_default env cfg ++ ['\n']) st2)
        else
          .ret 0 st2
    | (.DC_STATUS_USER_ALLOWED, _) => .ret 0 st1
    | (.DC_STATUS_USER_DENIED, _) => .ret 1 (printf "Access denied\n".toList st1)
    | (.DC_STATUS_USER_NOT_ENROLLED, _) => .ret 0 st1
    | _ => .ret 1 (printf "Access denied\n".toList st1)

/-- The `switch` of `dc_exec_auth` (duo_cosign.c:192-238), entered once the
request `auth` is read. -/
def dc_exec_auth_switch (env : Env) (cfg : dc_cfg_entry_t) (auth : dc_auth_t)
    (st : State) : Outcome Int :=
  let st4 := record (.dc_auth auth.user auth.factor auth.data) st
  match env.dc_auth cfg auth with
  | (.DC_STATUS_USER_ALLOWED, _) =>
    .ret 0 (printf (factor_name_or_default env cfg ++ ['\n']) st4)
  | (.DC_STATUS_AUTH_PENDING, aresult) =>
    match aresult.txid with
    | none => .ret 1 (printf "Authentication failed\n".toList st4)
    | some txid =>
      .ret 1 (printf "Authentication pending\n".toList
        (printf ("$duo_txid=".toList ++ txid ++ ['\n'])
          (printf ("$duo_auth_type=".toList ++ auth.factor ++ ['\n']) st4)))
  | _ =>
    let st5 := printf "Authentication failed\n".toList st4
    (dc_exec_preauth env [auth.user] cfg DC_EXEC_MODE_DEFAULT st5).bind
      fun _ st6 => .ret 1 st6

/-- Embedding of `dc_exec_auth` (duo_cosign.c:179-239): the three reads of
lines 188-190, then the `switch`. -/
def dc_exec_auth (env : Env) (_argv : List CStr) (cfg : dc_cfg_entry_t) (_flags : Int)
    (st : State) : Outcome Int :=
  (dc_read_input_line st).bind fun user st1 =>
  (dc_read_input_line st1).bind fun factor st2 =>
  (dc_read_input_line st2).bind fun data st3 =>
    dc_exec_auth_switch env cfg { user := user, factor := factor, data := data } st3

/-! ## The dispatcher -/

/-- Model of `strrchr( s, c )`: the suffix of `s` that starts at the last
occurrence of `c`, `none` (NULL) when `c` does not occur. -/
def strrchr : CStr → Char → Option CStr
  | [], _ => none
  | x :: xs, c =>
    match strrchr xs c with
    | some r => some r
    | none => if x = c then some (x :: xs) else none

/-- Embedding of `dc_get_exec_name` (duo_cosign.c:34-50); `none` is `abort()`. -/
def dc_get_exec_name (exec_path : CStr) : Option CStr :=
  match strrchr exec_path '/' with
  | some exec_name =>
    if exec_name.tail = [] then none else some exec_name.tail
  | none => some exec_path

/-- The type of the `exec_fn` member of the dispatch table. -/
abbrev ExecFn := Env → List CStr → dc_cfg_entry_t → Int → State → Outcome Int

/-- An entry of the dispatch table. -/
structure ExecEntry where
  exec_name : CStr
  exec_fn : ExecFn
  exec_flags : Int

/-- The dispatch table `exec_name_tab` of `main` (duo_cosign.c:254-264), the
terminating `{ NULL, NULL }` entry being the end of the list. -/
def exec_name_tab : List ExecEntry :=
  [ { exec_name := "duo_cosign".toList, exec_fn := dc_exec_auth,
      exec_flags := DC_EXEC_MODE_DEFAULT },
    { exec_name := "duo_cosign_check".toList, exec_fn := dc_exec_check,
      exec_flags := DC_EXEC_MODE_DEFAULT },
    { exec_name := "duo_cosign_ping".toList, exec_fn := dc_exec_ping,
      exec_flags := DC_EXEC_MODE_DEFAULT },
    { exec_name := "duo_cosign_preauth".toList, exec_fn := dc_exec_preauth,
      exec_flags := DC_EXEC_MODE_PREAUTH_DEFAULT } ]

/-- The lookup loop of `main` (duo_cosign.c:284-288): the first entry whose
name `strcmp` finds equal to `xname`, `none` when the loop reaches the
terminating entry. -/
def exec_name_lookup (xname : CStr) : List ExecEntry → Option ExecEntry
  | [] => none
  | e :: tab => if xname = e.exec_name then some e else exec_name_lookup xname tab

/-- Embedding of `main` (duo_cosign.c:241-324).  `av` is the argument vector,
`av[ 0 ]` included; with an empty vector `av[ 0 ]` is NULL and `strrchr` is
applied to a null pointer. -/
def main (env : Env) (av : List CStr) (st : State) : Outcome Int :=
  match av with
  | [] => .undefined
  | av0 :: args =>
    match dc_get_exec_name av0 with
    | none => .abort st
    | some xname =>
      let cfg_path := env.dc_get_cfg_path
      let status := (env.dc_cfg_read cfg_path).1
      let cfg_list := (env.dc_cfg_read cfg_path).2
      if status < 0 then
        .exit 2 st
      else
        let st1 := record (.curl_global_init env.curl_global_init) st
        if env.curl_global_init ≠ 0 then
          .exit 2 st1
        else
          match exec_name_lookup xname exec_name_tab with
          | none => .exit 1 st1
          | some e =>
            (e.exec_fn env args cfg_list e.exec_flags (record (.exec_fn e.exec_name) st1)).bind
              fun rc st2 => .ret rc (record .curl_global_cleanup st2)

/-- A concrete environment for evaluation: factor name `push` configured,
authentication pending with transaction id `abc123`, one enrolled device. -/
def env0 : Env where
  _DC_FACTOR_NAME := "Duo".toList
  DC_CFG_FACTOR_NAME := fun _ => some "push".toList
  status_code := fun _ => 0
  dc_ping := fun _ => (.DC_STATUS_OK, 1700000000)
  dc_check := fun _ => (.DC_STATUS_OK, 1700000000)
  dc_preauth := fun _ _ => (.DC_STATUS_AUTH_REQUIRED, ⟨[⟨"D1".toList, "phone".toList, []⟩]⟩)
  dc_auth := fun _ _ => (.DC_STATUS_AUTH_PENDING, ⟨some "abc123".toList⟩)
  dc_device_list_json_serialize := fun _ => some "[]".toList
  dc_get_cfg_path := "/etc/duo.conf".toList
  dc_cfg_read := fun _ => (0, [])
  curl_global_init := 0

/-- The environment `env0` with authentication allowed. -/
def env_allowed : Env :=
  { env0 with dc_auth := fun _ _ => (.DC_STATUS_USER_ALLOWED, ⟨none⟩) }

/-- The environment `env0` with authentication denied. -/
def env_denied : Env :=
  { env0 with dc_auth := fun _ _ => (.DC_STATUS_USER_DENIED, ⟨none⟩) }

/-- The environment `env0` with authentication pending and a NULL `txid`. -/
def env_pending_null : Env :=
  { env0 with dc_auth := fun _ _ => (.DC_STATUS_AUTH_PENDING, ⟨none⟩) }

/-- The environment `env0` with authentication pending and a `txid` that is
the empty string. -/
def env_pending_empty : Env :=
  { env0 with dc_auth := fun _ _ => (.DC_STATUS_AUTH_PENDING, ⟨some []⟩) }

/-- The environment `env0` with a user configured to bypass the second
factor. -/
def env_bypass : Env :=
  { env0 with dc_preauth := fun _ _ => (.DC_STATUS_USER_ALLOWED, ⟨[]⟩) }

/-- The environment `env0` with a JSON serializer that fails. -/
def env_json_fails : Env :=
  { env0 with dc_device_list_json_serialize := fun _ => none }

/-- The standard input of a request: user `alice`, factor `push`, data
`phone1`. -/
def stdin_alice : List Char := "alice\npush\nphone1\n".toList

/-- A standard input whose first line is too long and starts with a NUL
character: one NUL, 510 times `a`, then the three lines of `stdin_alice`. -/
def stdin_nul_long : List Char :=
  NUL :: List.replicate 510 'a' ++ stdin_alice

/-- A request field that fits the reader: no newline and no NUL character in
it, and `bound` characters at most. -/
def FieldWithin (bound : Nat) (l : CStr) : Prop :=
  '\n' ∉ l ∧ NUL ∉ l ∧ l.length ≤ bound

instance (bound : Nat) (l : CStr) : Decidable (FieldWithin bound l) := by
  unfold FieldWithin; infer_instance

/-- A line is missing or too long: no newline among the first 511 characters
of the stream, so that the stream ends before a terminator or the line with
its terminator does not fit the 512-byte buffer. -/
def LineMissingOrTooLong (s : List Char) : Prop :=
  '\n' ∉ s.take 511

instance (s : List Char) : Decidable (LineMissingOrTooLong s) := by
  unfold LineMissingOrTooLong; infer_instance

/-- One of the three request lines (user, factor, data) is missing or too
long, the lines before it being terminated. -/
def BadRequest (s : List Char) : Prop :=
  LineMissingOrTooLong s
  ∨ (∃ l1 r, s = l1 ++ '\n' :: r ∧ '\n' ∉ l1 ∧ LineMissingOrTooLong r)
  ∨ (∃ l1 l2 r, s = l1 ++ '\n' :: (l2 ++ '\n' :: r) ∧ '\n' ∉ l1 ∧ '\n' ∉ l2
      ∧ LineMissingOrTooLong r)

/-- The exit status a run hands to the caller of the process: the value `main`
returns or the argument of `exit`; there is none after `abort()` or undefined
behaviour. -/
def exit_code : Outcome Int → Option Int
  | .ret rc _ => some rc
  | .exit code _ => some code
  | .abort _ => none
  | .undefined => none

/-- The state a run ends in, when it has one. -/
def Outcome.final_state {α : Type} : Outcome α → Option State
  | .ret _ st => some st
  | .exit _ st => some st
  | .abort st => some st
  | .undefined => none

/-- The events that are calls of the remote service. -/
def Event.is_remote_call : Event → Bool
  | .dc_ping => true
  | .dc_check => true
  | .dc_preauth _ => true
  | .dc_auth _ _ _ => true
  | _ => false

/-- The environment `env0` with a remote service that does not answer `ping`
and `check`. -/
def env_unreachable : Env :=
  { env0 with dc_ping := fun _ => (.DC_STATUS_FAIL, 0),
              dc_check := fun _ => (.DC_STATUS_FAIL, 0) }

/-- The events that initialise or clean up the network-library context. -/
def Event.is_curl : Event → Bool
  | .curl_global_init _ => true
  | .curl_global_cleanup => true
  | _ => false

/-- The lines of an output stream, read from left to right: `cur` holds the
characters of the line in progress; a newline ends a line, and characters
after the last newline make a last line. -/
def stdout_lines_from : List Char → List Char → List (List Char)
  | cur, [] => if cur = [] then [] else [cur]
  | cur, c :: s =>
    if c = '\n' then cur :: stdout_lines_from [] s
    else stdout_lines_from (cur ++ [c]) s

/-- The lines of an output stream, terminators stripped. -/
def stdout_lines (s : List Char) : List (List Char) :=
  stdout_lines_from [] s

/-- A variable line has the form `$<name>=<value>`; every other line is
a status line. -/
def is_variable_line (l : List Char) : Bool :=
  decide (l.head? = some '$' ∧ '=' ∈ l)

/-- The output shape of the protocol: zero or more variable lines followed by
exactly one status line. -/
def protocol_shape : List (List Char) → Bool
  | [] => false
  | [l] => !is_variable_line l
  | l :: l2 :: ls => is_variable_line l && protocol_shape (l2 :: ls)

/-- The output shape of the Preauth persona: zero or more variable lines
followed by at most one status line. -/
def protocol_shape_opt : List (List Char) → Bool
  | [] => true
  | [_] => true
  | l :: l2 :: ls => is_variable_line l && protocol_shape_opt (l2 :: ls)

/-- The fixed phrases used as status lines. -/
def fixed_phrases : List (List Char) :=
  ["Authentication pending".toList, "Authentication failed".toList, "Access denied".toList]

/-- The environment `env_allowed` with a configured factor name that holds a
newline character. -/
def env_two_line_name : Env :=
  { env_allowed with DC_CFG_FACTOR_NAME := fun _ => some "Duo\nPush".toList }

/-! ## The input reader -/

theorem fgetsChars_line (l rest : List Char) (n : Nat) (hnl : '\n' ∉ l)
    (hlen : l.length < n) :
    fgetsChars n (l ++ '\n' :: rest) = (l ++ ['\n'], rest) := by
  induction l generalizing n with
  | nil =>
    cases n with
    | zero => simp at hlen
    | succ n => simp [fgetsChars]
  | cons c l ih =>
    cases n with
    | zero => simp at hlen
    | succ n =>
      have hc : c ≠ '\n' := fun h => hnl (by simp [h])
      have hl : '\n' ∉ l := fun h => hnl (by simp [h])
      have hn : l.length < n := by simpa using hlen
      simp [fgetsChars, hc, ih n hl hn]

theorem takeWhile_until_nul (l r : List Char) (h : NUL ∉ l) :
    (l ++ NUL :: r).takeWhile (fun c => c != NUL) = l := by
  induction l with
  | nil => simp
  | cons c l ih =>
    have hc : c ≠ NUL := fun e => h (by simp [e])
    have hl : NUL ∉ l := fun e => h (by simp [e])
    simp [List.takeWhile_cons, hc, ih hl]

theorem newline_ne_nul : '\n' ≠ NUL := by decide

theorem getD_append_length (l r : List Char) (c d : Char) :
    (l ++ c :: r).getD l.length d = c := by
  induction l with
  | nil => rfl
  | cons x l ih => simpa using ih

/-- The reader returns a line of at most 510 characters, terminator stripped,
and leaves the stream right after the terminator. -/
theorem dc_read_input_line_ok (l rest out : List Char) (tr : List Event)
    (h : FieldWithin 510 l) :
    dc_read_input_line ⟨l ++ '\n' :: rest, out, tr⟩ = .ret l ⟨rest, out, tr⟩ := by
  obtain ⟨hnl, hnul, hlen⟩ := h
  have hf : fgetsChars 511 (l ++ '\n' :: rest) = (l ++ ['\n'], rest) :=
    fgetsChars_line l rest 511 hnl (by omega)
  have hbuf : fgets 512 (l ++ '\n' :: rest) = some (l ++ ['\n'] ++ [NUL], rest) := by
    unfold fgets
    rw [show 512 - 1 = 511 from rfl, hf]
    cases l <;> rfl
  have hnul2 : NUL ∉ l ++ ['\n'] := by
    simp only [List.mem_append, List.mem_singleton, not_or]
    exact ⟨hnul, fun e => newline_ne_nul e.symm⟩
  have hlen2 : strlen (l ++ ['\n'] ++ [NUL]) = l.length + 1 := by
    unfold strlen
    rw [takeWhile_until_nul _ [] hnul2]
    simp
  have hget : (l ++ ['\n'] ++ [NUL]).getD (l.length + 1 - 1) NUL = '\n' := by
    simpa using getD_append_length l [NUL] '\n' NUL
  have hset : (l ++ ['\n'] ++ [NUL]).set (l.length + 1 - 1) NUL = l ++ NUL :: [NUL] := by
    simp
  unfold dc_read_input_line
  simp only [hbuf, hlen2, hget, hset, strdup, takeWhile_until_nul l [NUL] hnul]
  simp

theorem fgetsChars_no_newline (n : Nat) (s : List Char) (h : '\n' ∉ s.take n) :
    fgetsChars n s = (s.take n, s.drop n) := by
  induction n generalizing s with
  | zero => simp [fgetsChars]
  | succ n ih =>
    cases s with
    | nil => simp [fgetsChars]
    | cons c s =>
      have hc : c ≠ '\n' := fun e => h (by simp [e])
      have hs : '\n' ∉ s.take n := fun e => h (by simp [e])
      simp [fgetsChars, hc, ih s hs]

/-- When `strlen` of the buffer is positive, the character tested at index
`len - 1` is one of the characters `fgets` read. -/
theorem getD_strlen_mem (b : List Char) (hpos : 0 < strlen (b ++ [NUL])) :
    (b ++ [NUL]).getD (strlen (b ++ [NUL]) - 1) NUL ∈ b := by
  induction b with
  | nil => simp [strlen] at hpos
  | cons c b ih =>
    by_cases hc : c = NUL
    · simp [strlen, hc] at hpos
    · have hlen : strlen (c :: b ++ [NUL]) = strlen (b ++ [NUL]) + 1 := by
        simp [strlen, List.takeWhile_cons, hc]
      rw [hlen]
      by_cases h0 : strlen (b ++ [NUL]) = 0
      · simp [h0]
      · have hpos2 : 0 < strlen (b ++ [NUL]) := Nat.pos_of_ne_zero h0
        have hidx : strlen (b ++ [NUL]) + 1 - 1 = (strlen (b ++ [NUL]) - 1) + 1 := by omega
        rw [hidx]
        have := ih hpos2
        simp only [List.cons_append, List.getD_cons_succ, List.mem_cons]
        exact Or.inr this

/-- A stream that starts with a NUL character: `strlen` gives 0 and the reader
indexes the buffer at `-1`. -/
theorem dc_read_input_line_leading_nul (s out : List Char) (tr : List Event) :
    dc_read_input_line ⟨NUL :: s, out, tr⟩ = .undefined := by
  have hne : NUL ≠ '\n' := fun e => newline_ne_nul e.symm
  simp [dc_read_input_line, fgets, fgetsChars, hne, strlen]

/-- A missing or too long line that does not start with a NUL character makes
the reader leave through `exit( 2 )`. -/
theorem dc_read_input_line_bad (s out : List Char) (tr : List Event)
    (hbad : LineMissingOrTooLong s) (hhead : s.head? ≠ some NUL) :
    dc_read_input_line ⟨s, out, tr⟩ = .exit 2 ⟨s.drop 511, out, tr⟩ := by
  have hf : fgetsChars 511 s = (s.take 511, s.drop 511) := fgetsChars_no_newline 511 s hbad
  cases s with
  | nil => simp [dc_read_input_line, fgets, fgetsChars]
  | cons c s =>
    have hc : c ≠ NUL := fun e => hhead (by simp [e])
    have hbuf : fgets 512 (c :: s)
        = some ((c :: s).take 511 ++ [NUL], (c :: s).drop 511) := by
      unfold fgets
      rw [show 512 - 1 = 511 from rfl, hf]
      rfl
    have hpos : 0 < strlen ((c :: s).take 511 ++ [NUL]) := by
      simp [strlen, List.takeWhile_cons, hc]
    have hmem := getD_strlen_mem ((c :: s).take 511) hpos
    have hne : ((c :: s).take 511 ++ [NUL]).getD
        (strlen ((c :: s).take 511 ++ [NUL]) - 1) NUL ≠ '\n' :=
      fun e => hbad (e ▸ hmem)
    unfold dc_read_input_line
    simp only [hbuf]
    rw [if_neg (Nat.pos_iff_ne_zero.mp hpos), if_pos (bne_iff_ne.mpr hne)]

theorem head_ne_nul (s : List Char) (h : NUL ∉ s) : s.head? ≠ some NUL := by
  cases s with
  | nil => simp
  | cons c s =>
    intro e
    exact h (by simp at e; simp [e])

/-- On a stream without NUL characters whose first line is terminated, the
reader returns that line or leaves through `exit( 2 )`; in both cases `stdout`
and the trace are as before. -/
theorem dc_read_input_line_nulfree (l r out : List Char) (tr : List Event)
    (hnl : '\n' ∉ l) (hnul : NUL ∉ l) :
    dc_read_input_line ⟨l ++ '\n' :: r, out, tr⟩ = .ret l ⟨r, out, tr⟩
      ∨ dc_read_input_line ⟨l ++ '\n' :: r, out, tr⟩
          = .exit 2 ⟨(l ++ '\n' :: r).drop 511, out, tr⟩ := by
  by_cases hlen : l.length ≤ 510
  · exact Or.inl (dc_read_input_line_ok l r out tr ⟨hnl, hnul, hlen⟩)
  · refine Or.inr (dc_read_input_line_bad _ out tr ?_ ?_)
    · unfold LineMissingOrTooLong
      rw [List.take_append_of_le_length (by omega)]
      exact fun e => hnl (List.mem_of_mem_take e)
    · cases l with
      | nil => simp at hlen
      | cons c l =>
        intro e
        exact hnul (by simp at e; simp [e])

theorem fgetsChars_cases (n : Nat) (s : List Char) :
    ('\n' ∉ s.take n ∧ fgetsChars n s = (s.take n, s.drop n))
      ∨ ∃ l rest, s = l ++ '\n' :: rest ∧ '\n' ∉ l ∧ l.length < n
          ∧ fgetsChars n s = (l ++ ['\n'], rest) := by
  induction n generalizing s with
  | zero => exact Or.inl ⟨by simp, by simp [fgetsChars]⟩
  | succ n ih =>
    cases s with
    | nil => exact Or.inl ⟨by simp, by simp [fgetsChars]⟩
    | cons c s =>
      by_cases hc : c = '\n'
      · exact Or.inr ⟨[], s, by simp [hc], by simp, by simp, by simp [fgetsChars, hc]⟩
      · rcases ih s with ⟨hno, hf⟩ | ⟨l, rest, hs, hnl, hlen, hf⟩
        · refine Or.inl ⟨?_, by simp [fgetsChars, hc, hf]⟩
          intro e
          rcases List.mem_cons.mp (by simpa using e) with e1 | e1
          · exact hc e1.symm
          · exact hno e1
        · refine Or.inr ⟨c :: l, rest, by simp [hs], ?_, by simpa using hlen,
            by simp [fgetsChars, hc, hf]⟩
          intro e
          rcases List.mem_cons.mp e with e1 | e1
          · exact hc e1.symm
          · exact hnl e1

/-- When a NUL character is among the characters `b` and `strlen` of the
buffer is positive, the character tested at index `len - 1` is one of `b`. -/
theorem getD_strlen_mem_of_nul (b r : List Char) (hin : NUL ∈ b)
    (hpos : 0 < strlen (b ++ r)) :
    (b ++ r).getD (strlen (b ++ r) - 1) NUL ∈ b := by
  induction b with
  | nil => simp at hin
  | cons c b ih =>
    by_cases hc : c = NUL
    · simp [strlen, hc] at hpos
    · have hin2 : NUL ∈ b := by
        rcases List.mem_cons.mp hin with e | e
        · exact absurd e.symm hc
        · exact e
      have hlen : strlen (c :: b ++ r) = strlen (b ++ r) + 1 := by
        simp [strlen, List.takeWhile_cons, hc]
      rw [hlen]
      by_cases h0 : strlen (b ++ r) = 0
      · simp [h0]
      · have hpos2 : 0 < strlen (b ++ r) := Nat.pos_of_ne_zero h0
        have hidx : strlen (b ++ r) + 1 - 1 = (strlen (b ++ r) - 1) + 1 := by omega
        rw [hidx]
        have := ih hin2 hpos2
        simp only [List.cons_append, List.getD_cons_succ, List.mem_cons]
        exact Or.inr this

/-- A terminated line with a NUL character in it is never returned. -/
theorem dc_read_input_line_embedded_nul (l rest out : List Char) (tr : List Event)
    (hnl : '\n' ∉ l) (hlen : l.length < 511) (hin : NUL ∈ l) :
    dc_read_input_line ⟨l ++ '\n' :: rest, out, tr⟩ = .undefined
      ∨ dc_read_input_line ⟨l ++ '\n' :: rest, out, tr⟩ = .exit 2 ⟨rest, out, tr⟩ := by
  have hf : fgetsChars 511 (l ++ '\n' :: rest) = (l ++ ['\n'], rest) :=
    fgetsChars_line l rest 511 hnl hlen
  have hbuf : fgets 512 (l ++ '\n' :: rest) = some (l ++ (['\n'] ++ [NUL]), rest) := by
    unfold fgets
    rw [show 512 - 1 = 511 from rfl, hf]
    cases l <;> simp
  unfold dc_read_input_line
  simp only [hbuf]
  by_cases h0 : strlen (l ++ (['\n'] ++ [NUL])) = 0
  · exact Or.inl (by rw [if_pos h0])
  · have hmem := getD_strlen_mem_of_nul l (['\n'] ++ [NUL]) hin (Nat.pos_of_ne_zero h0)
    have hne : (l ++ (['\n'] ++ [NUL])).getD (strlen (l ++ (['\n'] ++ [NUL])) - 1) NUL
        ≠ '\n' := fun e => hnl (e ▸ hmem)
    exact Or.inr (by rw [if_neg h0, if_pos (bne_iff_ne.mpr hne)])

/-- Every line the reader returns is a terminated line of the stream, free of
newline and NUL characters and of at most 510 characters; the stream is left
right after its terminator, `stdout` and the trace are as before. -/
theorem dc_read_input_line_ret (s out l : List Char) (tr : List Event) (st2 : State)
    (h : dc_read_input_line ⟨s, out, tr⟩ = .ret l st2) :
    ∃ rest, s = l ++ '\n' :: rest ∧ FieldWithin 510 l ∧ st2 = ⟨rest, out, tr⟩ := by
  rcases fgetsChars_cases 511 s with ⟨hno, _⟩ | ⟨l2, rest, hs, hnl, hlen, _⟩
  · by_cases hhead : s.head? = some NUL
    · cases s with
      | nil => simp at hhead
      | cons c s =>
        have hc : c = NUL := by simpa using hhead
        rw [hc, dc_read_input_line_leading_nul] at h
        cases h
    · rw [dc_read_input_line_bad s out tr hno hhead] at h
      cases h
  · subst hs
    by_cases hin : NUL ∈ l2
    · rcases dc_read_input_line_embedded_nul l2 rest out tr hnl hlen hin with e | e
      · rw [e] at h
        cases h
      · rw [e] at h
        cases h
    · have hok : FieldWithin 510 l2 := ⟨hnl, hin, by omega⟩
      rw [dc_read_input_line_ok l2 rest out tr hok] at h
      cases h
      exact ⟨rest, rfl, hok, rfl⟩

theorem dc_read_input_line_ret_witness :
    ∃ rest, "alice\npush\n".toList = "alice".toList ++ '\n' :: rest
      ∧ FieldWithin 510 "alice".toList
      ∧ (⟨"push\n".toList, [], []⟩ : State) = ⟨rest, [], []⟩ :=
  dc_read_input_line_ret "alice\npush\n".toList [] "alice".toList []
    ⟨"push\n".toList, [], []⟩ (by decide)

/-- C9 fails as stated: a line of exactly 511 characters before its newline,
free of newline and NUL characters, is refused with `exit( 2 )`. -/
theorem dc_read_input_line_511_refused :
    FieldWithin 511 (List.replicate 511 'a')
      ∧ dc_read_input_line ⟨List.replicate 511 'a' ++ '\n' :: [], [], []⟩
        = .exit 2 ⟨['\n'], [], []⟩ := by
  have htake : (List.replicate 511 'a' ++ ['\n']).take 511 = List.replicate 511 'a' :=
    List.take_left' (List.length_replicate 511 'a')
  have hdrop : (List.replicate 511 'a' ++ ['\n']).drop 511 = ['\n'] :=
    List.drop_left' (List.length_replicate 511 'a')
  have hmem : ∀ c : Char, c ≠ 'a' → c ∉ List.replicate 511 'a' := by
    intro c hc e
    exact hc (List.eq_of_mem_replicate e)
  refine ⟨⟨hmem _ (by decide), hmem _ (by decide), (List.length_replicate 511 'a').le⟩, ?_⟩
  have h := dc_read_input_line_bad (List.replicate 511 'a' ++ ['\n']) [] []
    (by unfold LineMissingOrTooLong; rw [htake]; exact hmem _ (by decide))
    (head_ne_nul _ (fun e => (List.mem_append.mp e).elim (hmem NUL (by decide))
      (fun e2 => newline_ne_nul (List.mem_singleton.mp e2).symm)))
  rw [hdrop] at h
  exact h

/-- C9, amended: a line of `n` characters before its newline, free of newline
and NUL characters, with `0 <= n <= 510`, is read with success: the reader
returns exactly these characters, terminator stripped, and leaves the stream
right after the terminator. -/
theorem dc_read_input_line_accepts (l rest out : List Char) (tr : List Event)
    (h : FieldWithin 510 l) :
    dc_read_input_line ⟨l ++ '\n' :: rest, out, tr⟩ = .ret l ⟨rest, out, tr⟩ :=
  dc_read_input_line_ok l rest out tr h

theorem dc_read_input_line_accepts_witness :
    dc_read_input_line ⟨List.replicate 510 'a' ++ '\n' :: "push\n".toList, [], []⟩
      = .ret (List.replicate 510 'a') ⟨"push\n".toList, [], []⟩ :=
  dc_read_input_line_accepts (List.replicate 510 'a') "push\n".toList [] []
    ⟨fun e => absurd (List.eq_of_mem_replicate e) (by decide),
     fun e => absurd (List.eq_of_mem_replicate e) (by decide),
     (List.length_replicate 510 'a').le⟩

/-! ## The Auth persona -/

/-- With three well-formed lines on `stdin`, `dc_exec_auth` enters its `switch`
with the request made of these lines. -/
theorem dc_exec_auth_reads (env : Env) (argv : List CStr) (cfg : dc_cfg_entry_t)
    (flags : Int) (user factor data rest out : List Char) (tr : List Event)
    (hu : FieldWithin 510 user) (hf : FieldWithin 510 factor)
    (hd : FieldWithin 510 data) :
    dc_exec_auth env argv cfg flags
        ⟨user ++ '\n' :: (factor ++ '\n' :: (data ++ '\n' :: rest)), out, tr⟩
      = dc_exec_auth_switch env cfg ⟨user, factor, data⟩ ⟨rest, out, tr⟩ := by
  unfold dc_exec_auth
  rw [dc_read_input_line_ok user _ out tr hu]
  simp only [Outcome.bind]
  rw [dc_read_input_line_ok factor _ out tr hf]
  simp only [Outcome.bind]
  rw [dc_read_input_line_ok data _ out tr hd]

/-- With an argument present, `dc_exec_preauth` returns: it leaves `stdin`
alone, appends lines to `stdout` that do not depend on the state, and records
one `dc_preauth` call. -/
theorem dc_exec_preauth_returns (env : Env) (user : CStr) (more : List CStr)
    (cfg : dc_cfg_entry_t) (flags : Int) :
    ∃ (rc : Int) (lines : List Char), ∀ (i o : List Char) (t : List Event),
      dc_exec_preauth env (user :: more) cfg flags ⟨i, o, t⟩
        = .ret rc ⟨i, o ++ lines, t ++ [.dc_preauth user]⟩ := by
  rcases h : env.dc_preauth cfg user with ⟨status, presult⟩
  cases status
  case DC_STATUS_AUTH_REQUIRED =>
    cases hj : env.dc_device_list_json_serialize presult.devices with
    | none =>
      exact ⟨1, "Access denied\n".toList, fun i o t => by
        simp only [dc_exec_preauth, h, hj, printf, record]⟩
    | some j =>
      by_cases hfl : Int.land flags DC_EXEC_MODE_USERFACTOR ≠ 0
      · exact ⟨0, ("$duo_devices_json=".toList ++ j ++ ['\n'])
          ++ (factor_name_or_default env cfg ++ ['\n']), fun i o t => by
          simp only [dc_exec_preauth, h, hj, printf, record, if_pos hfl, List.append_assoc]⟩
      · exact ⟨0, "$duo_devices_json=".toList ++ j ++ ['\n'], fun i o t => by
          simp only [dc_exec_preauth, h, hj, printf, record, if_neg hfl]⟩
  case DC_STATUS_USER_ALLOWED =>
    exact ⟨0, [], fun i o t => by
      simp only [dc_exec_preauth, h, record, List.append_nil]⟩
  case DC_STATUS_USER_NOT_ENROLLED =>
    exact ⟨0, [], fun i o t => by
      simp only [dc_exec_preauth, h, record, List.append_nil]⟩
  all_goals
    exact ⟨1, "Access denied\n".toList, fun i o t => by
      simp only [dc_exec_preauth, h, printf, record]⟩

/-- C1: when the three request lines are read and the authenticate
collaborator returns Pending with a non-empty txid `t`, `dc_exec_auth` writes
exactly the lines `$duo_auth_type=<factor>`, `$duo_txid=<t>` and
`Authentication pending`, in this order, and returns 1. -/
theorem dc_exec_auth_pending (env : Env) (argv : List CStr) (cfg : dc_cfg_entry_t)
    (flags : Int) (user factor data rest out : List Char) (tr : List Event) (t : CStr)
    (hu : FieldWithin 510 user) (hf : FieldWithin 510 factor)
    (hd : FieldWithin 510 data)
    (hpend : env.dc_auth cfg ⟨user, factor, data⟩
      = (.DC_STATUS_AUTH_PENDING, ⟨some t⟩))
    (_ht : t ≠ []) :
    dc_exec_auth env argv cfg flags
        ⟨user ++ '\n' :: (factor ++ '\n' :: (data ++ '\n' :: rest)), out, tr⟩
      = .ret 1 ⟨rest,
          out ++ ("$duo_auth_type=".toList ++ factor ++ ['\n']
            ++ ("$duo_txid=".toList ++ t ++ ['\n'])
            ++ "Authentication pending\n".toList),
          tr ++ [.dc_auth user factor data]⟩ := by
  rw [dc_exec_auth_reads env argv cfg flags user factor data rest out tr hu hf hd]
  simp only [dc_exec_auth_switch, hpend, printf, record, List.append_assoc]

theorem dc_exec_auth_pending_witness :
    dc_exec_auth env0 [] [] 0 ⟨stdin_alice, [], []⟩
      = .ret 1 ⟨[],
          "$duo_auth_type=push\n$duo_txid=abc123\nAuthentication pending\n".toList,
          [.dc_auth "alice".toList "push".toList "phone1".toList]⟩ :=
  dc_exec_auth_pending env0 [] [] 0 "alice".toList "push".toList "phone1".toList [] [] []
    "abc123".toList (by decide) (by decide) (by decide) rfl (by decide)

/-- C2: when the three request lines are read and the authenticate
collaborator returns Allowed, `dc_exec_auth` writes exactly one line, the
configured factor name when one is configured and the built-in default
otherwise, and returns 0. -/
theorem dc_exec_auth_allowed (env : Env) (argv : List CStr) (cfg : dc_cfg_entry_t)
    (flags : Int) (user factor data rest out : List Char) (tr : List Event)
    (hu : FieldWithin 510 user) (hf : FieldWithin 510 factor)
    (hd : FieldWithin 510 data)
    (hallow : (env.dc_auth cfg ⟨user, factor, data⟩).1 = .DC_STATUS_USER_ALLOWED) :
    (∀ name, env.DC_CFG_FACTOR_NAME cfg = some name →
      dc_exec_auth env argv cfg flags
          ⟨user ++ '\n' :: (factor ++ '\n' :: (data ++ '\n' :: rest)), out, tr⟩
        = .ret 0 ⟨rest, out ++ (name ++ ['\n']), tr ++ [.dc_auth user factor data]⟩)
    ∧ (env.DC_CFG_FACTOR_NAME cfg = none →
      dc_exec_auth env argv cfg flags
          ⟨user ++ '\n' :: (factor ++ '\n' :: (data ++ '\n' :: rest)), out, tr⟩
        = .ret 0 ⟨rest, out ++ (env._DC_FACTOR_NAME ++ ['\n']),
            tr ++ [.dc_auth user factor data]⟩) := by
  rw [dc_exec_auth_reads env argv cfg flags user factor data rest out tr hu hf hd]
  rcases h : env.dc_auth cfg ⟨user, factor, data⟩ with ⟨status, aresult⟩
  rw [h] at hallow
  simp only at hallow
  subst hallow
  constructor
  · intro name hname
    simp only [dc_exec_auth_switch, h, printf, record, factor_name_or_default, hname]
  · intro hname
    simp only [dc_exec_auth_switch, h, printf, record, factor_name_or_default, hname]

theorem dc_exec_auth_allowed_witness :
    dc_exec_auth env_allowed [] [] 0 ⟨stdin_alice, [], []⟩
      = .ret 0 ⟨[], "push\n".toList,
          [.dc_auth "alice".toList "push".toList "phone1".toList]⟩ :=
  (dc_exec_auth_allowed env_allowed [] [] 0 "alice".toList "push".toList
    "phone1".toList [] [] [] (by decide) (by decide) (by decide) rfl).1
    "push".toList rfl

/-- C3: when the three request lines are read and the authenticate outcome is
neither Allowed nor Pending, the output of `dc_exec_auth` is the line
`Authentication failed` followed by exactly the lines `dc_exec_preauth` writes
for the same user under `DC_EXEC_MODE_DEFAULT`, in which the UserFactor bit is
clear, and the return code is 1 whatever `dc_exec_preauth` returns. -/
theorem dc_exec_auth_failure (env : Env) (argv : List CStr) (cfg : dc_cfg_entry_t)
    (flags : Int) (user factor data rest out : List Char) (tr : List Event)
    (hu : FieldWithin 510 user) (hf : FieldWithin 510 factor)
    (hd : FieldWithin 510 data)
    (hna : (env.dc_auth cfg ⟨user, factor, data⟩).1 ≠ .DC_STATUS_USER_ALLOWED)
    (hnp : (env.dc_auth cfg ⟨user, factor, data⟩).1 ≠ .DC_STATUS_AUTH_PENDING) :
    Int.land DC_EXEC_MODE_DEFAULT DC_EXEC_MODE_USERFACTOR = 0
    ∧ ∃ (rc : Int) (lines : List Char),
      dc_exec_preauth env [user] cfg DC_EXEC_MODE_DEFAULT
          ⟨rest, [], tr ++ [.dc_auth user factor data]⟩
        = .ret rc ⟨rest, lines, tr ++ [.dc_auth user factor data, .dc_preauth user]⟩
      ∧ dc_exec_auth env argv cfg flags
          ⟨user ++ '\n' :: (factor ++ '\n' :: (data ++ '\n' :: rest)), out, tr⟩
        = .ret 1 ⟨rest, out ++ ("Authentication failed\n".toList ++ lines),
            tr ++ [.dc_auth user factor data, .dc_preauth user]⟩ := by
  obtain ⟨rc, lines, hpre⟩ := dc_exec_preauth_returns env user [] cfg DC_EXEC_MODE_DEFAULT
  refine ⟨by decide, rc, lines, ?_, ?_⟩
  · rw [hpre]
    simp only [List.nil_append, List.append_assoc, List.singleton_append]
  · rw [dc_exec_auth_reads env argv cfg flags user factor data rest out tr hu hf hd]
    rcases h : env.dc_auth cfg ⟨user, factor, data⟩ with ⟨status, aresult⟩
    rw [h] at hna hnp
    cases status
    case DC_STATUS_USER_ALLOWED => exact absurd rfl hna
    case DC_STATUS_AUTH_PENDING => exact absurd rfl hnp
    all_goals
      simp only [dc_exec_auth_switch, h, printf, record, hpre, Outcome.bind,
        List.append_assoc, List.singleton_append]

theorem dc_exec_auth_failure_witness :
    Int.land DC_EXEC_MODE_DEFAULT DC_EXEC_MODE_USERFACTOR = 0
    ∧ ∃ (rc : Int) (lines : List Char),
      dc_exec_preauth env_denied ["alice".toList] [] DC_EXEC_MODE_DEFAULT
          ⟨[], [], [] ++ [.dc_auth "alice".toList "push".toList "phone1".toList]⟩
        = .ret rc ⟨[], lines,
            [] ++ [.dc_auth "alice".toList "push".toList "phone1".toList,
              .dc_preauth "alice".toList]⟩
      ∧ dc_exec_auth env_denied [] [] 0 ⟨stdin_alice, [], []⟩
        = .ret 1 ⟨[], [] ++ ("Authentication failed\n".toList ++ lines),
            [] ++ [.dc_auth "alice".toList "push".toList "phone1".toList,
              .dc_preauth "alice".toList]⟩ :=
  dc_exec_auth_failure env_denied [] [] 0 "alice".toList "push".toList "phone1".toList
    [] [] [] (by decide) (by decide) (by decide) (by decide) (by decide)

/-- C4 fails as stated: with a Pending outcome whose txid is present but the
empty string, `dc_exec_auth` writes the `$duo_auth_type=` line, an empty
`$duo_txid=` line and `Authentication pending`, not the single line
`Authentication failed`. -/
theorem dc_exec_auth_pending_empty_txid :
    env_pending_empty.dc_auth [] ⟨"alice".toList, "push".toList, "phone1".toList⟩
        = (.DC_STATUS_AUTH_PENDING, ⟨some []⟩)
      ∧ dc_exec_auth env_pending_empty [] [] 0 ⟨stdin_alice, [], []⟩
        = .ret 1 ⟨[], "$duo_auth_type=push\n$duo_txid=\nAuthentication pending\n".toList,
            [.dc_auth "alice".toList "push".toList "phone1".toList]⟩
      ∧ dc_exec_auth env_pending_empty [] [] 0 ⟨stdin_alice, [], []⟩
        ≠ .ret 1 ⟨[], "Authentication failed\n".toList,
            [.dc_auth "alice".toList "push".toList "phone1".toList]⟩ := by
  decide

/-- C4, amended: when the three request lines are read and the authenticate
collaborator returns Pending with an absent txid (a NULL pointer),
`dc_exec_auth` writes exactly the single line `Authentication failed`, hence no
`$duo_txid=` and no `$duo_auth_type=` line, and returns 1. -/
theorem dc_exec_auth_pending_null_txid (env : Env) (argv : List CStr)
    (cfg : dc_cfg_entry_t) (flags : Int) (user factor data rest out : List Char)
    (tr : List Event)
    (hu : FieldWithin 510 user) (hf : FieldWithin 510 factor)
    (hd : FieldWithin 510 data)
    (hpend : env.dc_auth cfg ⟨user, factor, data⟩ = (.DC_STATUS_AUTH_PENDING, ⟨none⟩)) :
    dc_exec_auth env argv cfg flags
        ⟨user ++ '\n' :: (factor ++ '\n' :: (data ++ '\n' :: rest)), out, tr⟩
      = .ret 1 ⟨rest, out ++ "Authentication failed\n".toList,
          tr ++ [.dc_auth user factor data]⟩ := by
  rw [dc_exec_auth_reads env argv cfg flags user factor data rest out tr hu hf hd]
  simp only [dc_exec_auth_switch, hpend, printf, record]

theorem dc_exec_auth_pending_null_txid_witness :
    dc_exec_auth env_pending_null [] [] 0 ⟨stdin_alice, [], []⟩
      = .ret 1 ⟨[], "Authentication failed\n".toList,
          [.dc_auth "alice".toList "push".toList "phone1".toList]⟩ :=
  dc_exec_auth_pending_null_txid env_pending_null [] [] 0 "alice".toList "push".toList
    "phone1".toList [] [] [] (by decide) (by decide) (by decide) rfl

/-- C8, at the failing input: the stream holds one NUL character, 510 times
`a`, then `alice`, `push`, `phone1`, each with its newline, so that the first
request line is too long.  The bounded read stores the first 511 characters,
the length of the string in the buffer is 0, and `dc_exec_auth` indexes the
buffer at `-1` instead of leaving through `exit( 2 )`.  What is left on the
stream are well-formed lines: were the first read to return the empty string,
the rest of `dc_exec_auth` would call `dc_auth` for user ``, factor `alice`,
data `push` and write to `stdout`. -/
theorem dc_exec_auth_nul_long_line :
    BadRequest stdin_nul_long
      ∧ fgets 512 stdin_nul_long
        = some (NUL :: List.replicate 510 'a' ++ [NUL], stdin_alice)
      ∧ strlen (NUL :: List.replicate 510 'a' ++ [NUL]) = 0
      ∧ (∀ (env : Env) (argv : List CStr) (cfg : dc_cfg_entry_t) (flags : Int),
          dc_exec_auth env argv cfg flags ⟨stdin_nul_long, [], []⟩ = .undefined)
      ∧ ((dc_read_input_line ⟨stdin_alice, [], []⟩).bind fun factor st2 =>
          (dc_read_input_line st2).bind fun data st3 =>
            dc_exec_auth_switch env0 [] ⟨[], factor, data⟩ st3)
        = .ret 1 ⟨"phone1\n".toList,
            "$duo_auth_type=alice\n$duo_txid=abc123\nAuthentication pending\n".toList,
            [.dc_auth [] "alice".toList "push".toList]⟩ := by
  have hlen : (NUL :: List.replicate 510 'a').length = 511 := by
    rw [List.length_cons, List.length_replicate]
  have htake : stdin_nul_long.take 511 = NUL :: List.replicate 510 'a' :=
    List.take_left' hlen
  have hdrop : stdin_nul_long.drop 511 = stdin_alice := List.drop_left' hlen
  have hnl : '\n' ∉ NUL :: List.replicate 510 'a' := by
    intro e
    rcases List.mem_cons.mp e with e1 | e1
    · exact newline_ne_nul e1
    · exact absurd (List.eq_of_mem_replicate e1) (by decide)
  have hbad : LineMissingOrTooLong stdin_nul_long := by
    unfold LineMissingOrTooLong
    rw [htake]
    exact hnl
  refine ⟨Or.inl hbad, ?_, rfl, fun env argv cfg flags => ?_, by decide⟩
  · unfold fgets
    rw [show 512 - 1 = 511 from rfl, fgetsChars_no_newline 511 stdin_nul_long hbad, htake,
      hdrop]
  · unfold dc_exec_auth
    rw [show stdin_nul_long = NUL :: (List.replicate 510 'a' ++ stdin_alice) from rfl,
      dc_read_input_line_leading_nul]
    rfl

/-- On a stream without NUL characters in which one of the three request
lines is missing or too long, `dc_exec_auth` leaves through `exit( 2 )` with
nothing written to `stdout` and no collaborator called. -/
theorem dc_exec_auth_bad_request_nulfree (env : Env) (argv : List CStr)
    (cfg : dc_cfg_entry_t) (flags : Int) (s out : List Char) (tr : List Event)
    (hnul : NUL ∉ s) (hbad : BadRequest s) :
    ∃ st2 : State, dc_exec_auth env argv cfg flags ⟨s, out, tr⟩ = .exit 2 st2
      ∧ st2.stdout = out ∧ st2.trace = tr := by
  rcases hbad with h1 | ⟨l1, r, hs, hl1, h2⟩ | ⟨l1, l2, r, hs, hl1, hl2, h3⟩
  · refine ⟨⟨s.drop 511, out, tr⟩, ?_, rfl, rfl⟩
    unfold dc_exec_auth
    rw [dc_read_input_line_bad s out tr h1 (head_ne_nul s hnul)]
    rfl
  · subst hs
    have hn1 : NUL ∉ l1 := fun e => hnul (by simp [e])
    have hnr : NUL ∉ r := fun e => hnul (by simp [e])
    unfold dc_exec_auth
    rcases dc_read_input_line_nulfree l1 r out tr hl1 hn1 with hr | hr
    · refine ⟨⟨r.drop 511, out, tr⟩, ?_, rfl, rfl⟩
      rw [hr]
      simp only [Outcome.bind]
      rw [dc_read_input_line_bad r out tr h2 (head_ne_nul r hnr)]
    · exact ⟨_, by rw [hr]; rfl, rfl, rfl⟩
  · subst hs
    have hn1 : NUL ∉ l1 := fun e => hnul (by simp [e])
    have hn2 : NUL ∉ l2 := fun e => hnul (by simp [e])
    have hnr : NUL ∉ r := fun e => hnul (by simp [e])
    unfold dc_exec_auth
    rcases dc_read_input_line_nulfree l1 (l2 ++ '\n' :: r) out tr hl1 hn1 with hr | hr
    · rw [hr]
      simp only [Outcome.bind]
      rcases dc_read_input_line_nulfree l2 r out tr hl2 hn2 with hr2 | hr2
      · refine ⟨⟨r.drop 511, out, tr⟩, ?_, rfl, rfl⟩
        rw [hr2]
        simp only [Outcome.bind]
        rw [dc_read_input_line_bad r out tr h3 (head_ne_nul r hnr)]
      · exact ⟨_, by rw [hr2], rfl, rfl⟩
    · exact ⟨_, by rw [hr]; rfl, rfl, rfl⟩

theorem dc_exec_auth_bad_request_nulfree_witness :
    ∃ st2 : State, dc_exec_auth env0 [] [] 0 ⟨"alice\npush\nphone1".toList, [], []⟩
        = .exit 2 st2
      ∧ st2.stdout = [] ∧ st2.trace = [] :=
  dc_exec_auth_bad_request_nulfree env0 [] [] 0 "alice\npush\nphone1".toList [] []
    (by decide)
    (Or.inr (Or.inr ⟨"alice".toList, "push".toList, "phone1".toList, rfl,
      by decide, by decide, by decide⟩))

/-! ## The Preauth persona -/

/-- C5: when the preauth collaborator returns AuthRequired and the device list
serializes to `j`, `dc_exec_preauth` writes the line `$duo_devices_json=<j>`,
then the factor name (configured, or the built-in default) as a second line if
and only if the UserFactor bit of the mode flags is set, writes nothing else
and returns 0. -/
theorem dc_exec_preauth_auth_required (env : Env) (user : CStr) (more : List CStr)
    (cfg : dc_cfg_entry_t) (flags : Int) (i o : List Char) (t : List Event)
    (presult : dc_preauth_result_t) (j : CStr)
    (hreq : env.dc_preauth cfg user = (.DC_STATUS_AUTH_REQUIRED, presult))
    (hjson : env.dc_device_list_json_serialize presult.devices = some j) :
    (Int.land flags DC_EXEC_MODE_USERFACTOR ≠ 0 →
      (∀ name, env.DC_CFG_FACTOR_NAME cfg = some name →
        dc_exec_preauth env (user :: more) cfg flags ⟨i, o, t⟩
          = .ret 0 ⟨i, o ++ ("$duo_devices_json=".toList ++ j ++ ['\n'] ++ (name ++ ['\n'])),
              t ++ [.dc_preauth user]⟩)
      ∧ (env.DC_CFG_FACTOR_NAME cfg = none →
        dc_exec_preauth env (user :: more) cfg flags ⟨i, o, t⟩
          = .ret 0 ⟨i, o ++ ("$duo_devices_json=".toList ++ j ++ ['\n']
                ++ (env._DC_FACTOR_NAME ++ ['\n'])),
              t ++ [.dc_preauth user]⟩))
    ∧ (Int.land flags DC_EXEC_MODE_USERFACTOR = 0 →
      dc_exec_preauth env (user :: more) cfg flags ⟨i, o, t⟩
        = .ret 0 ⟨i, o ++ ("$duo_devices_json=".toList ++ j ++ ['\n']),
            t ++ [.dc_preauth user]⟩) := by
  refine ⟨fun hfl => ⟨fun name hname => ?_, fun hname => ?_⟩, fun hfl => ?_⟩
  · simp only [dc_exec_preauth, hreq, hjson, printf, record, if_pos hfl,
      factor_name_or_default, hname, List.append_assoc]
  · simp only [dc_exec_preauth, hreq, hjson, printf, record, if_pos hfl,
      factor_name_or_default, hname, List.append_assoc]
  · simp only [dc_exec_preauth, hreq, hjson, printf, record, hfl, ne_eq,
      not_true_eq_false, if_false]

theorem dc_exec_preauth_auth_required_witness :
    dc_exec_preauth env0 ["alice".toList] [] DC_EXEC_MODE_PREAUTH_DEFAULT ⟨[], [], []⟩
        = .ret 0 ⟨[], "$duo_devices_json=[]\npush\n".toList, [.dc_preauth "alice".toList]⟩
      ∧ dc_exec_preauth env0 ["alice".toList] [] DC_EXEC_MODE_DEFAULT ⟨[], [], []⟩
        = .ret 0 ⟨[], "$duo_devices_json=[]\n".toList, [.dc_preauth "alice".toList]⟩ :=
  ⟨((dc_exec_preauth_auth_required env0 "alice".toList [] [] DC_EXEC_MODE_PREAUTH_DEFAULT
      [] [] [] ⟨[⟨"D1".toList, "phone".toList, []⟩]⟩ "[]".toList rfl rfl).1
      (by decide)).1 "push".toList rfl,
   (dc_exec_preauth_auth_required env0 "alice".toList [] [] DC_EXEC_MODE_DEFAULT
      [] [] [] ⟨[⟨"D1".toList, "phone".toList, []⟩]⟩ "[]".toList rfl rfl).2
      (by decide)⟩

/-- C6: when the preauth collaborator returns UserAllowed or UserNotEnrolled,
`dc_exec_preauth` writes nothing to `stdout` and returns 0, whatever the mode
flags. -/
theorem dc_exec_preauth_silent (env : Env) (user : CStr) (more : List CStr)
    (cfg : dc_cfg_entry_t) (flags : Int) (i o : List Char) (t : List Event)
    (hst : (env.dc_preauth cfg user).1 = .DC_STATUS_USER_ALLOWED
      ∨ (env.dc_preauth cfg user).1 = .DC_STATUS_USER_NOT_ENROLLED) :
    dc_exec_preauth env (user :: more) cfg flags ⟨i, o, t⟩
      = .ret 0 ⟨i, o, t ++ [.dc_preauth user]⟩ := by
  rcases h : env.dc_preauth cfg user with ⟨status, presult⟩
  rw [h] at hst
  rcases hst with hst | hst <;> simp only at hst <;> subst hst <;>
    simp only [dc_exec_preauth, h, record]

theorem dc_exec_preauth_silent_witness :
    dc_exec_preauth env_bypass ["alice".toList] [] DC_EXEC_MODE_PREAUTH_DEFAULT ⟨[], [], []⟩
      = .ret 0 ⟨[], [], [] ++ [.dc_preauth "alice".toList]⟩ :=
  dc_exec_preauth_silent env_bypass "alice".toList [] [] DC_EXEC_MODE_PREAUTH_DEFAULT
    [] [] [] (Or.inl rfl)

/-- C7: `dc_exec_preauth` writes exactly the single line `Access denied` and
returns 1 when the preauth outcome is UserDenied, when it is a status other
than AuthRequired, UserAllowed, UserDenied and UserNotEnrolled, and when it is
AuthRequired but the device list fails to serialize; in the last case neither
a `$duo_devices_json=` line nor a factor-name line is written, whatever the
mode flags. -/
theorem dc_exec_preauth_denied (env : Env) (user : CStr) (more : List CStr)
    (cfg : dc_cfg_entry_t) (flags : Int) (i o : List Char) (t : List Event)
    (hst : (env.dc_preauth cfg user).1 = .DC_STATUS_USER_DENIED
      ∨ ((env.dc_preauth cfg user).1 ≠ .DC_STATUS_AUTH_REQUIRED
          ∧ (env.dc_preauth cfg user).1 ≠ .DC_STATUS_USER_ALLOWED
          ∧ (env.dc_preauth cfg user).1 ≠ .DC_STATUS_USER_DENIED
          ∧ (env.dc_preauth cfg user).1 ≠ .DC_STATUS_USER_NOT_ENROLLED)
      ∨ ((env.dc_preauth cfg user).1 = .DC_STATUS_AUTH_REQUIRED
          ∧ env.dc_device_list_json_serialize (env.dc_preauth cfg user).2.devices
            = none)) :
    dc_exec_preauth env (user :: more) cfg flags ⟨i, o, t⟩
      = .ret 1 ⟨i, o ++ "Access denied\n".toList, t ++ [.dc_preauth user]⟩ := by
  rcases h : env.dc_preauth cfg user with ⟨status, presult⟩
  rw [h] at hst
  rcases hst with hst | ⟨h1, h2, h3, h4⟩ | ⟨hst, hser⟩
  · simp only at hst
    subst hst
    simp only [dc_exec_preauth, h, printf, record]
  · cases status
    case DC_STATUS_AUTH_REQUIRED => exact absurd rfl h1
    case DC_STATUS_USER_ALLOWED => exact absurd rfl h2
    case DC_STATUS_USER_DENIED => exact absurd rfl h3
    case DC_STATUS_USER_NOT_ENROLLED => exact absurd rfl h4
    all_goals simp only [dc_exec_preauth, h, printf, record]
  · simp only at hst hser
    subst hst
    simp only [dc_exec_preauth, h, hser, printf, record]

theorem dc_exec_preauth_denied_witness :
    dc_exec_preauth env_json_fails ["alice".toList] [] DC_EXEC_MODE_PREAUTH_DEFAULT
        ⟨[], [], []⟩
      = .ret 1 ⟨[], [] ++ "Access denied\n".toList, [] ++ [.dc_preauth "alice".toList]⟩ :=
  dc_exec_preauth_denied env_json_fails "alice".toList [] [] DC_EXEC_MODE_PREAUTH_DEFAULT
    [] [] [] (Or.inr (Or.inr ⟨rfl, rfl⟩))

/-! ## The dispatcher -/

/-- The lookup loop finds nothing for a name that is not in the table. -/
theorem exec_name_lookup_none (xname : CStr) (tab : List ExecEntry)
    (h : xname ∉ tab.map (fun e => e.exec_name)) :
    exec_name_lookup xname tab = none := by
  induction tab with
  | nil => rfl
  | cons e tab ih =>
    have he : xname ≠ e.exec_name := fun c => h (by simp [c])
    have ht : xname ∉ tab.map (fun e => e.exec_name) := fun c => h (by simp [c])
    simp only [exec_name_lookup, if_neg he, ih ht]

/-- C10: for an invocation identity that is not a name of the dispatch table,
with configuration loading and network-library initialisation successful,
`main` calls no handler, writes nothing to `stdout` and leaves through
`exit( 1 )`, the same for every argument list. -/
theorem main_unrecognized (env : Env) (av0 xname : CStr) (args : List CStr) (st : State)
    (hname : dc_get_exec_name av0 = some xname)
    (hnot : xname ∉ exec_name_tab.map (fun e => e.exec_name))
    (hcfg : 0 ≤ (env.dc_cfg_read env.dc_get_cfg_path).1)
    (hcurl : env.curl_global_init = 0) :
    main env (av0 :: args) st
        = .exit 1 ⟨st.stdin, st.stdout, st.trace ++ [.curl_global_init 0]⟩
      ∧ ∀ args2 : List CStr, main env (av0 :: args2) st = main env (av0 :: args) st := by
  have hmain : ∀ a : List CStr, main env (av0 :: a) st
      = .exit 1 ⟨st.stdin, st.stdout, st.trace ++ [.curl_global_init 0]⟩ := by
    intro a
    simp only [main, hname, not_lt.mpr hcfg, if_false, hcurl, ne_eq, not_true_eq_false,
      exec_name_lookup_none xname exec_name_tab hnot, record]
  exact ⟨hmain args, fun args2 => by rw [hmain args2, hmain args]⟩

theorem main_unrecognized_witness :
    main env0 ["/usr/local/bin/duo_cosign_enroll".toList, "alice".toList] ⟨[], [], []⟩
        = .exit 1 ⟨[], [], [] ++ [.curl_global_init 0]⟩
      ∧ ∀ args2 : List CStr,
          main env0 ("/usr/local/bin/duo_cosign_enroll".toList :: args2) ⟨[], [], []⟩
            = main env0 ["/usr/local/bin/duo_cosign_enroll".toList, "alice".toList]
                ⟨[], [], []⟩ :=
  main_unrecognized env0 "/usr/local/bin/duo_cosign_enroll".toList
    "duo_cosign_enroll".toList ["alice".toList] ⟨[], [], []⟩ (by decide) (by decide)
    (by decide) rfl

/-! ## Frame lemmas for the handlers and the dispatcher -/

/-- The `switch` of `dc_exec_auth` always returns: 0 on Allowed and 1 on every
other outcome; it leaves `stdin` alone, appends lines that do not depend on
the state, and records the `dc_auth` call followed by remote calls only. -/
theorem dc_exec_auth_switch_returns (env : Env) (cfg : dc_cfg_entry_t) (auth : dc_auth_t) :
    ∃ (lines : List Char) (evs : List Event),
      (evs = [] ∨ evs = [.dc_preauth auth.user])
      ∧ ∀ (i o : List Char) (t : List Event),
        dc_exec_auth_switch env cfg auth ⟨i, o, t⟩
          = .ret (if (env.dc_auth cfg auth).1 = .DC_STATUS_USER_ALLOWED then 0 else 1)
              ⟨i, o ++ lines, t ++ (.dc_auth auth.user auth.factor auth.data :: evs)⟩ := by
  obtain ⟨rc, plines, hpre⟩ :=
    dc_exec_preauth_returns env auth.user [] cfg DC_EXEC_MODE_DEFAULT
  rcases h : env.dc_auth cfg auth with ⟨status, aresult⟩
  cases status
  case DC_STATUS_USER_ALLOWED =>
    exact ⟨factor_name_or_default env cfg ++ ['\n'], [], Or.inl rfl, fun i o t => by
      simp only [dc_exec_auth_switch, h, printf, record, if_true]⟩
  case DC_STATUS_AUTH_PENDING =>
    cases htx : aresult.txid with
    | none =>
      exact ⟨"Authentication failed\n".toList, [], Or.inl rfl, fun i o t => by
        simp only [dc_exec_auth_switch, h, htx, printf, record, reduceCtorEq, if_false]⟩
    | some txid =>
      exact ⟨"$duo_auth_type=".toList ++ auth.factor ++ ['\n']
          ++ ("$duo_txid=".toList ++ txid ++ ['\n']) ++ "Authentication pending\n".toList,
        [], Or.inl rfl, fun i o t => by
        simp only [dc_exec_auth_switch, h, htx, printf, record, reduceCtorEq, if_false,
          List.append_assoc]⟩
  all_goals
    exact ⟨"Authentication failed\n".toList ++ plines, [.dc_preauth auth.user], Or.inr rfl,
      fun i o t => by
        simp only [dc_exec_auth_switch, h, printf, record, hpre, Outcome.bind, reduceCtorEq,
          if_false, List.append_assoc, List.singleton_append]⟩

/-- With the invocation identity found in the table, configuration loading and
network-library initialisation successful, `main` calls the handler of the
entry on the remaining arguments and cleans up after its return. -/
theorem main_dispatch (env : Env) (av0 xname : CStr) (args : List CStr) (st : State)
    (e : ExecEntry)
    (hname : dc_get_exec_name av0 = some xname)
    (hcfg : 0 ≤ (env.dc_cfg_read env.dc_get_cfg_path).1)
    (hcurl : env.curl_global_init = 0)
    (hlook : exec_name_lookup xname exec_name_tab = some e) :
    main env (av0 :: args) st
      = (e.exec_fn env args (env.dc_cfg_read env.dc_get_cfg_path).2 e.exec_flags
          (record (.exec_fn e.exec_name) (record (.curl_global_init 0) st))).bind
          fun rc st2 => .ret rc (record .curl_global_cleanup st2) := by
  simp only [main, hname, not_lt.mpr hcfg, if_false, hcurl, ne_eq, not_true_eq_false, hlook]

theorem exec_name_lookup_auth :
    exec_name_lookup "duo_cosign".toList exec_name_tab
      = some ⟨"duo_cosign".toList, dc_exec_auth, DC_EXEC_MODE_DEFAULT⟩ := rfl

theorem exec_name_lookup_check :
    exec_name_lookup "duo_cosign_check".toList exec_name_tab
      = some ⟨"duo_cosign_check".toList, dc_exec_check, DC_EXEC_MODE_DEFAULT⟩ := rfl

theorem exec_name_lookup_ping :
    exec_name_lookup "duo_cosign_ping".toList exec_name_tab
      = some ⟨"duo_cosign_ping".toList, dc_exec_ping, DC_EXEC_MODE_DEFAULT⟩ := rfl

theorem exec_name_lookup_preauth :
    exec_name_lookup "duo_cosign_preauth".toList exec_name_tab
      = some ⟨"duo_cosign_preauth".toList, dc_exec_preauth, DC_EXEC_MODE_PREAUTH_DEFAULT⟩ :=
  rfl

/-- The three outcomes on which `dc_exec_preauth` prints `Access denied`. -/
theorem dc_exec_preauth_access_denied (env : Env) (user : CStr) (more : List CStr)
    (cfg : dc_cfg_entry_t) (flags : Int) (i o : List Char) (t : List Event)
    (hst : (env.dc_preauth cfg user).1 = .DC_STATUS_USER_DENIED
      ∨ ((env.dc_preauth cfg user).1 ≠ .DC_STATUS_AUTH_REQUIRED
          ∧ (env.dc_preauth cfg user).1 ≠ .DC_STATUS_USER_ALLOWED
          ∧ (env.dc_preauth cfg user).1 ≠ .DC_STATUS_USER_DENIED
          ∧ (env.dc_preauth cfg user).1 ≠ .DC_STATUS_USER_NOT_ENROLLED)
      ∨ ((env.dc_preauth cfg user).1 = .DC_STATUS_AUTH_REQUIRED
          ∧ env.dc_device_list_json_serialize (env.dc_preauth cfg user).2.devices
            = none)) :
    dc_exec_preauth env (user :: more) cfg flags ⟨i, o, t⟩
      = .ret 1 ⟨i, o ++ "Access denied\n".toList, t ++ [.dc_preauth user]⟩ := by
  rcases h : env.dc_preauth cfg user with ⟨status, presult⟩
  rw [h] at hst
  rcases hst with hst | ⟨h1, h2, h3, h4⟩ | ⟨hst, hser⟩
  · simp only at hst
    subst hst
    simp only [dc_exec_preauth, h, printf, record]
  · cases status
    case DC_STATUS_AUTH_REQUIRED => exact absurd rfl h1
    case DC_STATUS_USER_ALLOWED => exact absurd rfl h2
    case DC_STATUS_USER_DENIED => exact absurd rfl h3
    case DC_STATUS_USER_NOT_ENROLLED => exact absurd rfl h4
    all_goals simp only [dc_exec_preauth, h, printf, record]
  · simp only at hst hser
    subst hst
    simp only [dc_exec_preauth, h, hser, printf, record]

/-! ## Exit codes and the dispatch table -/

/-- C11 fails as stated: the run on the unrecognized identity
`duo_cosign_enroll` and the run of the Auth persona on a denied authentication
both end with exit code 1. -/
theorem unrecognized_code_equals_failure_code :
    exit_code (main env0 ["/usr/local/bin/duo_cosign_enroll".toList] ⟨[], [], []⟩) = some 1
      ∧ main env_denied ["/usr/local/bin/duo_cosign".toList] ⟨stdin_alice, [], []⟩
        = .ret 1 ⟨[], "Authentication failed\n$duo_devices_json=[]\n".toList,
            [.curl_global_init 0, .exec_fn "duo_cosign".toList,
             .dc_auth "alice".toList "push".toList "phone1".toList,
             .dc_preauth "alice".toList, .curl_global_cleanup]⟩
      ∧ exit_code (main env_denied ["/usr/local/bin/duo_cosign".toList]
          ⟨stdin_alice, [], []⟩) = some 1 := by
  decide

/-- C11, amended: on an unrecognized invocation identity the dispatcher ends
the process with exit code 1, and 1 is also the exit code of the Auth persona
on every outcome other than Allowed (failure or pending) and of the Preauth
persona when it prints `Access denied`; the exit code alone does not tell the
two apart. -/
theorem unrecognized_exit_code (env : Env) (av0 xname : CStr) (args : List CStr)
    (st : State)
    (hname : dc_get_exec_name av0 = some xname)
    (hnot : xname ∉ exec_name_tab.map (fun e => e.exec_name))
    (hcfg : 0 ≤ (env.dc_cfg_read env.dc_get_cfg_path).1)
    (hcurl : env.curl_global_init = 0) :
    exit_code (main env (av0 :: args) st) = some 1
      ∧ (∀ (av1 : CStr) (args1 : List CStr) (user factor data rest out : List Char)
          (tr : List Event),
          dc_get_exec_name av1 = some "duo_cosign".toList →
          FieldWithin 510 user → FieldWithin 510 factor → FieldWithin 510 data →
          (env.dc_auth (env.dc_cfg_read env.dc_get_cfg_path).2 ⟨user, factor, data⟩).1
            ≠ .DC_STATUS_USER_ALLOWED →
          exit_code (main env (av1 :: args1)
            ⟨user ++ '\n' :: (factor ++ '\n' :: (data ++ '\n' :: rest)), out, tr⟩) = some 1)
      ∧ (∀ (av1 user : CStr) (more : List CStr) (st1 : State),
          dc_get_exec_name av1 = some "duo_cosign_preauth".toList →
          ((env.dc_preauth (env.dc_cfg_read env.dc_get_cfg_path).2 user).1
              = .DC_STATUS_USER_DENIED
            ∨ ((env.dc_preauth (env.dc_cfg_read env.dc_get_cfg_path).2 user).1
                  ≠ .DC_STATUS_AUTH_REQUIRED
                ∧ (env.dc_preauth (env.dc_cfg_read env.dc_get_cfg_path).2 user).1
                  ≠ .DC_STATUS_USER_ALLOWED
                ∧ (env.dc_preauth (env.dc_cfg_read env.dc_get_cfg_path).2 user).1
                  ≠ .DC_STATUS_USER_DENIED
                ∧ (env.dc_preauth (env.dc_cfg_read env.dc_get_cfg_path).2 user).1
                  ≠ .DC_STATUS_USER_NOT_ENROLLED)
            ∨ ((env.dc_preauth (env.dc_cfg_read env.dc_get_cfg_path).2 user).1
                  = .DC_STATUS_AUTH_REQUIRED
                ∧ env.dc_device_list_json_serialize
                    (env.dc_preauth (env.dc_cfg_read env.dc_get_cfg_path).2 user).2.devices
                  = none)) →
          exit_code (main env (av1 :: user :: more) st1) = some 1) := by
  refine ⟨?_, ?_, ?_⟩
  · simp only [main, hname, not_lt.mpr hcfg, if_false, hcurl, ne_eq, not_true_eq_false,
      exec_name_lookup_none xname exec_name_tab hnot, exit_code]
  · intro av1 args1 user factor data rest out tr hav hu hf hd hna
    obtain ⟨lines, evs, _, hsw⟩ :=
      dc_exec_auth_switch_returns env (env.dc_cfg_read env.dc_get_cfg_path).2
        ⟨user, factor, data⟩
    rw [main_dispatch env av1 _ args1 _ _ hav hcfg hcurl exec_name_lookup_auth]
    simp only [record]
    rw [dc_exec_auth_reads env args1 _ _ user factor data rest out _ hu hf hd, hsw,
      if_neg hna]
    rfl
  · intro av1 user more st1 hav hden
    rw [main_dispatch env av1 _ (user :: more) _ _ hav hcfg hcurl exec_name_lookup_preauth]
    simp only [record]
    rw [dc_exec_preauth_access_denied env user more _ _ _ _ _ hden]
    rfl

theorem unrecognized_exit_code_witness :
    exit_code (main env_denied ["/usr/local/bin/duo_cosign_enroll".toList, "alice".toList]
        ⟨[], [], []⟩) = some 1
      ∧ exit_code (main env_denied ["/usr/local/bin/duo_cosign".toList]
          ⟨stdin_alice, [], []⟩) = some 1 :=
  have h := unrecognized_exit_code env_denied "/usr/local/bin/duo_cosign_enroll".toList
    "duo_cosign_enroll".toList ["alice".toList] ⟨[], [], []⟩ (by decide) (by decide)
    (by decide) rfl
  ⟨h.1, h.2.1 "/usr/local/bin/duo_cosign".toList [] "alice".toList "push".toList
    "phone1".toList [] [] [] (by decide) (by decide) (by decide) (by decide) (by decide)⟩

/-- The lookup loop returns an entry whose name equals the identity, byte for
byte. -/
theorem exec_name_lookup_some (xname : CStr) (tab : List ExecEntry) (e : ExecEntry)
    (h : exec_name_lookup xname tab = some e) : e ∈ tab ∧ e.exec_name = xname := by
  induction tab with
  | nil => cases h
  | cons e2 tab ih =>
    by_cases he : xname = e2.exec_name
    · simp only [exec_name_lookup, if_pos he, Option.some.injEq] at h
      subst h
      exact ⟨List.mem_cons_self _ _, he.symm⟩
    · simp only [exec_name_lookup, if_neg he] at h
      exact ⟨List.mem_cons_of_mem _ (ih h).1, (ih h).2⟩

/-- C12 fails as stated: the identity `duo_cosign_auth_status` is not found in
the dispatch table, and a run under it ends as an unrecognized identity. -/
theorem auth_status_not_in_table :
    (∀ e ∈ exec_name_tab, e.exec_name ≠ "duo_cosign_auth_status".toList)
      ∧ main env0 ["/usr/local/bin/duo_cosign_auth_status".toList] ⟨[], [], []⟩
        = .exit 1 ⟨[], [], [.curl_global_init 0]⟩ := by
  refine ⟨?_, by decide⟩
  intro e he
  simp only [exec_name_tab, List.mem_cons, List.mem_singleton, List.not_mem_nil,
    or_false] at he
  rcases he with rfl | rfl | rfl | rfl <;> decide

/-- C12, amended: each of the four identities `duo_cosign`,
`duo_cosign_check`, `duo_cosign_ping` and `duo_cosign_preauth` is found in the
dispatch table and selects its handler and mode flags; the lookup matches
names exactly; the names of the table are pairwise distinct, so that each
occurs in exactly one entry. -/
theorem exec_name_tab_lookup :
    exec_name_lookup "duo_cosign".toList exec_name_tab
        = some ⟨"duo_cosign".toList, dc_exec_auth, DC_EXEC_MODE_DEFAULT⟩
      ∧ exec_name_lookup "duo_cosign_check".toList exec_name_tab
        = some ⟨"duo_cosign_check".toList, dc_exec_check, DC_EXEC_MODE_DEFAULT⟩
      ∧ exec_name_lookup "duo_cosign_ping".toList exec_name_tab
        = some ⟨"duo_cosign_ping".toList, dc_exec_ping, DC_EXEC_MODE_DEFAULT⟩
      ∧ exec_name_lookup "duo_cosign_preauth".toList exec_name_tab
        = some ⟨"duo_cosign_preauth".toList, dc_exec_preauth, DC_EXEC_MODE_PREAUTH_DEFAULT⟩
      ∧ (∀ (xname : CStr) (e : ExecEntry),
          exec_name_lookup xname exec_name_tab = some e → e.exec_name = xname)
      ∧ (exec_name_tab.map (fun e => e.exec_name)).Nodup
      ∧ (∀ n ∈ exec_name_tab.map (fun e => e.exec_name),
          (exec_name_tab.map (fun e => e.exec_name)).count n = 1) := by
  refine ⟨rfl, rfl, rfl, rfl, fun xname e h => (exec_name_lookup_some xname _ e h).2, ?_, ?_⟩
  · decide
  · decide

/-! ## The Ping and Check personas -/

/-- C13: with `DC_STATUS_OK` of value 0, when `dc_ping` (`dc_check`) succeeds
with timestamp `t` the handler writes the single line holding the decimal
representation of `t` and returns 0; on every other outcome it writes nothing
and leaves through `exit( 2 )`. -/
theorem dc_exec_ping_check (env : Env) (argv : List CStr) (cfg : dc_cfg_entry_t)
    (flags : Int) (st : State) (hok : env.status_code .DC_STATUS_OK = 0) :
    ((env.dc_ping cfg).1 = .DC_STATUS_OK →
        dc_exec_ping env argv cfg flags st
          = .ret 0 ⟨st.stdin, st.stdout ++ ((toString (env.dc_ping cfg).2).toList ++ ['\n']),
              st.trace ++ [.dc_ping]⟩)
      ∧ ((env.dc_ping cfg).1 ≠ .DC_STATUS_OK →
        dc_exec_ping env argv cfg flags st
          = .exit 2 ⟨st.stdin, st.stdout, st.trace ++ [.dc_ping]⟩)
      ∧ ((env.dc_check cfg).1 = .DC_STATUS_OK →
        dc_exec_check env argv cfg flags st
          = .ret 0 ⟨st.stdin, st.stdout ++ ((toString (env.dc_check cfg).2).toList ++ ['\n']),
              st.trace ++ [.dc_check]⟩)
      ∧ ((env.dc_check cfg).1 ≠ .DC_STATUS_OK →
        dc_exec_check env argv cfg flags st
          = .exit 2 ⟨st.stdin, st.stdout, st.trace ++ [.dc_check]⟩) := by
  refine ⟨fun h => ?_, fun h => ?_, fun h => ?_, fun h => ?_⟩
  · simp only [dc_exec_ping, h, ne_eq, not_true_eq_false, if_false, hok, printf, record,
      fmt_ld]
  · simp only [dc_exec_ping, ne_eq, h, not_false_eq_true, if_true, record]
  · simp only [dc_exec_check, h, ne_eq, not_true_eq_false, if_false, hok, printf, record,
      fmt_ld]
  · simp only [dc_exec_check, ne_eq, h, not_false_eq_true, if_true, record]

theorem dc_exec_ping_check_witness :
    dc_exec_ping env0 [] [] 0 ⟨[], [], []⟩
        = .ret 0 ⟨[], "1700000000\n".toList, [.dc_ping]⟩
      ∧ dc_exec_check env_unreachable [] [] 0 ⟨[], [], []⟩
        = .exit 2 ⟨[], [], [.dc_check]⟩ :=
  ⟨(dc_exec_ping_check env0 [] [] 0 ⟨[], [], []⟩ rfl).1 rfl,
   (dc_exec_ping_check env_unreachable [] [] 0 ⟨[], [], []⟩ rfl).2.2.2 (by decide)⟩

/-! ## The network-library context -/

/-- Whatever the reader does, it leaves `stdout` and the trace alone. -/
theorem dc_read_input_line_frame (st s : State)
    (h : (dc_read_input_line st).final_state = some s) :
    s.stdout = st.stdout ∧ s.trace = st.trace := by
  unfold dc_read_input_line at h
  cases hf : fgets 512 st.stdin with
  | none =>
    simp only [hf, Outcome.final_state, Option.some.injEq] at h
    subst h
    exact ⟨rfl, rfl⟩
  | some p =>
    obtain ⟨buf, rest⟩ := p
    simp only [hf] at h
    split_ifs at h
    · cases h
    · simp only [Outcome.final_state, Option.some.injEq] at h
      subst h
      exact ⟨rfl, rfl⟩
    · simp only [Outcome.final_state, Option.some.injEq] at h
      subst h
      exact ⟨rfl, rfl⟩

/-- The handler `dc_exec_auth` adds only remote calls to the trace. -/
theorem dc_exec_auth_frame (env : Env) (argv : List CStr) (cfg : dc_cfg_entry_t)
    (flags : Int) (st s : State)
    (h : (dc_exec_auth env argv cfg flags st).final_state = some s) :
    ∃ evs, s.trace = st.trace ++ evs ∧ ∀ e ∈ evs, e.is_remote_call = true := by
  have hnil : ∀ s1 : State, s1.trace = st.trace →
      ∃ evs, s1.trace = st.trace ++ evs ∧ ∀ e ∈ evs, e.is_remote_call = true :=
    fun s1 h1 => ⟨[], by simp [h1], by simp⟩
  unfold dc_exec_auth at h
  cases h1 : dc_read_input_line st with
  | undefined => rw [h1] at h; cases h
  | abort s1 =>
    have hf := dc_read_input_line_frame st s1 (by rw [h1]; rfl)
    rw [h1] at h
    cases h
    exact hnil _ hf.2
  | exit c s1 =>
    have hf := dc_read_input_line_frame st s1 (by rw [h1]; rfl)
    rw [h1] at h
    cases h
    exact hnil _ hf.2
  | ret user s1 =>
    have hf1 := dc_read_input_line_frame st s1 (by rw [h1]; rfl)
    rw [h1] at h
    simp only [Outcome.bind] at h
    cases h2 : dc_read_input_line s1 with
    | undefined => rw [h2] at h; cases h
    | abort s2 =>
      have hf := dc_read_input_line_frame s1 s2 (by rw [h2]; rfl)
      rw [h2] at h
      cases h
      exact hnil _ (hf.2.trans hf1.2)
    | exit c s2 =>
      have hf := dc_read_input_line_frame s1 s2 (by rw [h2]; rfl)
      rw [h2] at h
      cases h
      exact hnil _ (hf.2.trans hf1.2)
    | ret factor s2 =>
      have hf2 := dc_read_input_line_frame s1 s2 (by rw [h2]; rfl)
      rw [h2] at h
      simp only [Outcome.bind] at h
      cases h3 : dc_read_input_line s2 with
      | undefined => rw [h3] at h; cases h
      | abort s3 =>
        have hf := dc_read_input_line_frame s2 s3 (by rw [h3]; rfl)
        rw [h3] at h
        cases h
        exact hnil _ (hf.2.trans (hf2.2.trans hf1.2))
      | exit c s3 =>
        have hf := dc_read_input_line_frame s2 s3 (by rw [h3]; rfl)
        rw [h3] at h
        cases h
        exact hnil _ (hf.2.trans (hf2.2.trans hf1.2))
      | ret data s3 =>
        have hf3 := dc_read_input_line_frame s2 s3 (by rw [h3]; rfl)
        rw [h3] at h
        simp only [Outcome.bind] at h
        obtain ⟨lines, evs, hevs, hsw⟩ :=
          dc_exec_auth_switch_returns env cfg ⟨user, factor, data⟩
        obtain ⟨i3, o3, t3⟩ := s3
        rw [hsw] at h
        cases h
        have ht : t3 = st.trace := hf3.2.trans (hf2.2.trans hf1.2)
        refine ⟨.dc_auth user factor data :: evs, by simp [ht], ?_⟩
        intro e he
        rcases List.mem_cons.mp he with rfl | he2
        · rfl
        · rcases hevs with rfl | rfl
          · cases he2
          · rw [List.mem_singleton.mp he2]
            rfl

/-- Each handler of the dispatch table adds only remote calls to the trace. -/
theorem exec_fn_frame (env : Env) (e : ExecEntry) (he : e ∈ exec_name_tab)
    (argv : List CStr) (cfg : dc_cfg_entry_t) (flags : Int) (st s : State)
    (h : (e.exec_fn env argv cfg flags st).final_state = some s) :
    ∃ evs, s.trace = st.trace ++ evs ∧ ∀ e2 ∈ evs, e2.is_remote_call = true := by
  simp only [exec_name_tab, List.mem_cons, List.mem_singleton, List.not_mem_nil,
    or_false] at he
  rcases he with rfl | rfl | rfl | rfl
  · exact dc_exec_auth_frame env argv cfg flags st s h
  · refine ⟨[.dc_check], ?_, by simp [Event.is_remote_call]⟩
    simp only [dc_exec_check] at h
    split_ifs at h <;>
      (simp only [Outcome.final_state, Option.some.injEq] at h; subst h; rfl)
  · refine ⟨[.dc_ping], ?_, by simp [Event.is_remote_call]⟩
    simp only [dc_exec_ping] at h
    split_ifs at h <;>
      (simp only [Outcome.final_state, Option.some.injEq] at h; subst h; rfl)
  · cases argv with
    | nil =>
      simp only [dc_exec_preauth, Outcome.final_state, Option.some.injEq] at h
      subst h
      exact ⟨[], by simp, by simp⟩
    | cons user more =>
      obtain ⟨rc, lines, hpre⟩ := dc_exec_preauth_returns env user more cfg flags
      obtain ⟨i, o, t⟩ := st
      simp only [hpre, Outcome.final_state, Option.some.injEq] at h
      subst h
      exact ⟨[.dc_preauth user], rfl, by simp [Event.is_remote_call]⟩

theorem is_curl_of_remote_call (e : Event) (h : e.is_remote_call = true) :
    e.is_curl = false := by
  cases e <;> first | rfl | cases h

/-- C15 fails as stated: the runs that leave through `exit` (a read error on
`stdin` in the Auth persona, a failed ping, an unrecognized identity) end
without a call of `curl_global_cleanup`. -/
theorem fatal_exits_skip_cleanup :
    main env0 ["/usr/local/bin/duo_cosign".toList] ⟨[], [], []⟩
        = .exit 2 ⟨[], [], [.curl_global_init 0, .exec_fn "duo_cosign".toList]⟩
      ∧ main env_unreachable ["/usr/local/bin/duo_cosign_ping".toList] ⟨[], [], []⟩
        = .exit 2 ⟨[], [],
            [.curl_global_init 0, .exec_fn "duo_cosign_ping".toList, .dc_ping]⟩
      ∧ main env0 ["/usr/local/bin/duo_cosign_enroll".toList] ⟨[], [], []⟩
        = .exit 1 ⟨[], [], [.curl_global_init 0]⟩ := by
  decide

/-- C15, amended: on every run of `main` the context is initialised at most
once and before every remote call; when the handler returns, the context is
cleaned up exactly once, as the last event before `main` returns; on the runs
that leave through `exit` or `abort` no cleanup takes place. -/
theorem main_curl_discipline (env : Env) (av : List CStr) (i o : List Char) :
    (∀ (rc : Int) (s : State), main env av ⟨i, o, []⟩ = .ret rc s →
        ∃ mid, s.trace = .curl_global_init 0 :: (mid ++ [.curl_global_cleanup])
          ∧ ∀ e ∈ mid, e.is_curl = false)
      ∧ (∀ s : State,
          (main env av ⟨i, o, []⟩ = .abort s ∨ ∃ c, main env av ⟨i, o, []⟩ = .exit c s) →
          s.trace = []
            ∨ ∃ r mid, s.trace = .curl_global_init r :: mid
                ∧ ∀ e ∈ mid, e.is_curl = false) := by
  cases av with
  | nil =>
    refine ⟨fun rc s h => (by cases h), fun s h => ?_⟩
    rcases h with h | ⟨c, h⟩ <;> cases h
  | cons av0 args =>
    cases hn : dc_get_exec_name av0 with
    | none =>
      have hm : main env (av0 :: args) ⟨i, o, []⟩ = .abort ⟨i, o, []⟩ := by
        simp only [main, hn]
      rw [hm]
      refine ⟨fun rc s h => (by cases h), fun s h => ?_⟩
      rcases h with h | ⟨c, h⟩ <;> cases h
      exact Or.inl rfl
    | some xname =>
      by_cases hcfg : (env.dc_cfg_read env.dc_get_cfg_path).1 < 0
      · have hm : main env (av0 :: args) ⟨i, o, []⟩ = .exit 2 ⟨i, o, []⟩ := by
          simp only [main, hn, hcfg, if_true]
        rw [hm]
        refine ⟨fun rc s h => (by cases h), fun s h => ?_⟩
        rcases h with h | ⟨c, h⟩ <;> cases h
        exact Or.inl rfl
      · by_cases hcurl : env.curl_global_init = 0
        · cases hl : exec_name_lookup xname exec_name_tab with
          | none =>
            have hm : main env (av0 :: args) ⟨i, o, []⟩
                = .exit 1 ⟨i, o, [.curl_global_init 0]⟩ := by
              simp only [main, hn, hcfg, if_false, hcurl, ne_eq, not_true_eq_false, hl,
                record, List.nil_append]
            rw [hm]
            refine ⟨fun rc s h => (by cases h), fun s h => ?_⟩
            rcases h with h | ⟨c, h⟩ <;> cases h
            exact Or.inr ⟨0, [], rfl, by simp⟩
          | some e =>
            have hmem := (exec_name_lookup_some xname exec_name_tab e hl).1
            have hm := main_dispatch env av0 xname args ⟨i, o, []⟩ e hn (not_lt.mp hcfg)
              hcurl hl
            have hfr := exec_fn_frame env e hmem args (env.dc_cfg_read env.dc_get_cfg_path).2
              e.exec_flags
              (record (.exec_fn e.exec_name) (record (.curl_global_init 0) ⟨i, o, []⟩))
            rw [hm]
            have hmid : ∀ evs : List Event, (∀ e2 ∈ evs, e2.is_remote_call = true) →
                ∀ e2 ∈ Event.exec_fn e.exec_name :: evs, e2.is_curl = false := by
              intro evs hevs e2 he2
              rcases List.mem_cons.mp he2 with rfl | he3
              · rfl
              · exact is_curl_of_remote_call e2 (hevs e2 he3)
            cases hh : e.exec_fn env args (env.dc_cfg_read env.dc_get_cfg_path).2 e.exec_flags
                (record (.exec_fn e.exec_name) (record (.curl_global_init 0) ⟨i, o, []⟩)) with
            | undefined =>
              refine ⟨fun rc s h => (by cases h), fun s h => ?_⟩
              rcases h with h | ⟨c, h⟩ <;> cases h
            | ret rc1 s1 =>
              obtain ⟨evs, htr, hevs⟩ := hfr s1 (by rw [hh]; rfl)
              refine ⟨fun rc s h => ?_, fun s h => ?_⟩
              · cases h
                refine ⟨.exec_fn e.exec_name :: evs, ?_, hmid evs hevs⟩
                simp only [record, htr, List.nil_append, List.cons_append, List.append_assoc,
                  List.singleton_append]
              · rcases h with h | ⟨c, h⟩ <;> cases h
            | exit c1 s1 =>
              obtain ⟨evs, htr, hevs⟩ := hfr s1 (by rw [hh]; rfl)
              refine ⟨fun rc s h => (by cases h), fun s h => ?_⟩
              rcases h with h | ⟨c, h⟩ <;> cases h
              refine Or.inr ⟨0, .exec_fn e.exec_name :: evs, ?_, hmid evs hevs⟩
              simp only [htr, record, List.nil_append, List.cons_append, List.singleton_append]
            | abort s1 =>
              obtain ⟨evs, htr, hevs⟩ := hfr s1 (by rw [hh]; rfl)
              refine ⟨fun rc s h => (by cases h), fun s h => ?_⟩
              rcases h with h | ⟨c, h⟩ <;> cases h
              refine Or.inr ⟨0, .exec_fn e.exec_name :: evs, ?_, hmid evs hevs⟩
              simp only [htr, record, List.nil_append, List.cons_append, List.singleton_append]
        · have hm : main env (av0 :: args) ⟨i, o, []⟩
              = .exit 2 ⟨i, o, [.curl_global_init env.curl_global_init]⟩ := by
            simp only [main, hn, hcfg, if_false, ne_eq, hcurl, not_false_eq_true, if_true,
              record, List.nil_append]
          rw [hm]
          refine ⟨fun rc s h => (by cases h), fun s h => ?_⟩
          rcases h with h | ⟨c, h⟩ <;> cases h
          exact Or.inr ⟨env.curl_global_init, [], rfl, by simp⟩

theorem main_curl_discipline_witness :
    ∃ mid, ([.curl_global_init 0, .exec_fn "duo_cosign_ping".toList, .dc_ping,
          .curl_global_cleanup] : List Event)
        = .curl_global_init 0 :: (mid ++ [.curl_global_cleanup])
      ∧ ∀ e ∈ mid, e.is_curl = false :=
  (main_curl_discipline env0 ["/usr/local/bin/duo_cosign_ping".toList] [] []).1 0
    ⟨[], "1700000000\n".toList,
      [.curl_global_init 0, .exec_fn "duo_cosign_ping".toList, .dc_ping,
        .curl_global_cleanup]⟩ (by decide)

/-! ## The request of the Auth persona -/

/-- C16: on a stream that begins with three well-formed lines `l1`, `l2`,
`l3`, `dc_exec_auth` enters its `switch` with the request of user `l1`, factor
`l2` and data `l3`, calls `dc_auth` once with that request, and returns with
the stream left right after the terminator of the third line. -/
theorem dc_exec_auth_request (env : Env) (argv : List CStr) (cfg : dc_cfg_entry_t)
    (flags : Int) (l1 l2 l3 rest out : List Char) (tr : List Event)
    (h1 : FieldWithin 510 l1) (h2 : FieldWithin 510 l2) (h3 : FieldWithin 510 l3) :
    dc_exec_auth env argv cfg flags ⟨l1 ++ '\n' :: (l2 ++ '\n' :: (l3 ++ '\n' :: rest)), out, tr⟩
        = dc_exec_auth_switch env cfg ⟨l1, l2, l3⟩ ⟨rest, out, tr⟩
      ∧ ∃ (rc : Int) (lines : List Char) (evs : List Event),
          dc_exec_auth env argv cfg flags
              ⟨l1 ++ '\n' :: (l2 ++ '\n' :: (l3 ++ '\n' :: rest)), out, tr⟩
            = .ret rc ⟨rest, out ++ lines, tr ++ (.dc_auth l1 l2 l3 :: evs)⟩
          ∧ (evs = [] ∨ evs = [.dc_preauth l1]) := by
  have hr := dc_exec_auth_reads env argv cfg flags l1 l2 l3 rest out tr h1 h2 h3
  obtain ⟨lines, evs, hevs, hsw⟩ := dc_exec_auth_switch_returns env cfg ⟨l1, l2, l3⟩
  exact ⟨hr, _, lines, evs, by rw [hr, hsw], hevs⟩

theorem dc_exec_auth_request_witness :
    dc_exec_auth env0 [] [] 0
        ⟨"alice".toList ++ '\n' :: ("push".toList ++ '\n' :: ("phone1".toList
          ++ '\n' :: "extra\n".toList)), [], []⟩
        = dc_exec_auth_switch env0 [] ⟨"alice".toList, "push".toList, "phone1".toList⟩
            ⟨"extra\n".toList, [], []⟩
      ∧ ∃ (rc : Int) (lines : List Char) (evs : List Event),
          dc_exec_auth env0 [] [] 0
              ⟨"alice".toList ++ '\n' :: ("push".toList ++ '\n' :: ("phone1".toList
                ++ '\n' :: "extra\n".toList)), [], []⟩
            = .ret rc ⟨"extra\n".toList, [] ++ lines,
                [] ++ (.dc_auth "alice".toList "push".toList "phone1".toList :: evs)⟩
          ∧ (evs = [] ∨ evs = [.dc_preauth "alice".toList]) :=
  dc_exec_auth_request env0 [] [] 0 "alice".toList "push".toList "phone1".toList
    "extra\n".toList [] [] (by decide) (by decide) (by decide)

/-! ## The invocation identity -/

theorem strrchr_none (s : CStr) (c : Char) (h : strrchr s c = none) : c ∉ s := by
  induction s with
  | nil => simp
  | cons x xs ih =>
    cases hx : strrchr xs c with
    | some r => simp [strrchr, hx] at h
    | none =>
      by_cases hc : x = c
      · simp [strrchr, hx, hc] at h
      · intro hmem
        rcases List.mem_cons.mp hmem with e | e
        · exact hc e.symm
        · exact ih hx e

/-- The result of `strrchr` starts at an occurrence of `c` that no other
occurrence follows. -/
theorem strrchr_some (s : CStr) (c : Char) (r : CStr) (h : strrchr s c = some r) :
    ∃ q t, s = q ++ c :: t ∧ r = c :: t ∧ c ∉ t := by
  induction s generalizing r with
  | nil => cases h
  | cons x xs ih =>
    cases hx : strrchr xs c with
    | some r2 =>
      obtain ⟨q, t, hs, hr, hc⟩ := ih r2 hx
      simp only [strrchr, hx, Option.some.injEq] at h
      subst h
      exact ⟨x :: q, t, by rw [hs]; rfl, hr, hc⟩
    | none =>
      by_cases hc : x = c
      · simp only [strrchr, hx, hc, if_true, Option.some.injEq] at h
        subst h
        exact ⟨[], xs, by rw [hc]; rfl, rfl, strrchr_none xs c hx⟩
      · simp [strrchr, hx, hc] at h

/-- C18: for a path `p` that does not end in `/`, `dc_get_exec_name` returns
the terminal component of `p`: an `r` without `/` with `p = q ++ r`, where `q`
is empty when `p` has no `/` and ends with the last `/` of `p` otherwise; for
a path that ends in `/` the function aborts. -/
theorem dc_get_exec_name_terminal (p : CStr) :
    (p.getLast? ≠ some '/' →
        ∃ q r, dc_get_exec_name p = some r ∧ '/' ∉ r ∧ p = q ++ r
          ∧ ('/' ∉ p → q = []) ∧ ('/' ∈ p → q.getLast? = some '/'))
      ∧ (p.getLast? = some '/' → dc_get_exec_name p = none) := by
  cases h : strrchr p '/' with
  | none =>
    have hno := strrchr_none p '/' h
    refine ⟨fun _ => ⟨[], p, ?_, hno, rfl, fun _ => rfl, fun hin => absurd hin hno⟩,
      fun hl => absurd (List.mem_of_getLast?_eq_some hl) hno⟩
    simp only [dc_get_exec_name, h]
  | some r0 =>
    obtain ⟨q, t, hp, hr, ht⟩ := strrchr_some p '/' r0 h
    subst hr
    cases t with
    | nil =>
      have hlast : p.getLast? = some '/' := by rw [hp]; exact List.getLast?_concat q
      refine ⟨fun hne => absurd hlast hne, fun _ => ?_⟩
      simp only [dc_get_exec_name, h, List.tail_cons, if_true]
    | cons y t2 =>
      have hp2 : p = (q ++ ['/']) ++ (y :: t2) := by rw [hp]; simp
      have hlast : p.getLast? = (y :: t2).getLast? := by
        rw [hp2]
        exact List.getLast?_append_of_ne_nil _ (by simp)
      have hname : dc_get_exec_name p = some (y :: t2) := by
        simp only [dc_get_exec_name, h, List.tail_cons, reduceCtorEq, if_false]
      refine ⟨fun _ => ⟨q ++ ['/'], y :: t2, hname, ht, hp2, fun hno => ?_,
        fun _ => List.getLast?_concat q⟩, fun hl => ?_⟩
      · exact absurd (by rw [hp]; simp) hno
      · rw [hlast] at hl
        exact absurd (List.mem_of_getLast?_eq_some hl) ht

theorem dc_get_exec_name_terminal_witness :
    (∃ q r, dc_get_exec_name "/usr/local/bin/duo_cosign_ping".toList = some r ∧ '/' ∉ r
        ∧ "/usr/local/bin/duo_cosign_ping".toList = q ++ r
        ∧ ('/' ∉ "/usr/local/bin/duo_cosign_ping".toList → q = [])
        ∧ ('/' ∈ "/usr/local/bin/duo_cosign_ping".toList → q.getLast? = some '/'))
      ∧ dc_get_exec_name "/usr/local/bin/".toList = none :=
  ⟨(dc_get_exec_name_terminal "/usr/local/bin/duo_cosign_ping".toList).1 (by decide),
   (dc_get_exec_name_terminal "/usr/local/bin/".toList).2 (by decide)⟩

/-! ## The length tested by the input reader -/

/-- C19, at the failing input: on a stream that starts with a NUL character
the bounded read succeeds and the length of the string in the buffer is 0, so
that the index `len - 1` is outside the buffer. -/
theorem strlen_zero_after_fgets :
    fgets 512 [NUL, '\n'] = some ([NUL, '\n', NUL], [])
      ∧ strlen [NUL, '\n', NUL] = 0
      ∧ dc_read_input_line ⟨[NUL, '\n'], [], []⟩ = .undefined := by
  decide

theorem fgetsChars_length (n : Nat) (s : List Char) : (fgetsChars n s).1.length ≤ n := by
  induction n generalizing s with
  | zero => simp [fgetsChars]
  | succ n ih =>
    cases s with
    | nil => simp [fgetsChars]
    | cons c s =>
      by_cases hc : c = '\n'
      · simp [fgetsChars, hc]
      · simpa [fgetsChars, hc] using ih s

theorem fgetsChars_head (n : Nat) (s b rest : List Char) (c : Char)
    (h : fgetsChars n s = (c :: b, rest)) : s.head? = some c := by
  cases n with
  | zero => simp [fgetsChars] at h
  | succ n =>
    cases s with
    | nil => simp [fgetsChars] at h
    | cons x s =>
      by_cases hx : x = '\n'
      · simp only [fgetsChars, hx, if_true, Prod.mk.injEq, List.cons.injEq] at h
        simp only [List.head?_cons, Option.some.injEq]
        rw [hx]
        exact h.1.1
      · simp only [fgetsChars, hx, if_false, Prod.mk.injEq, List.cons.injEq] at h
        simp only [List.head?_cons, Option.some.injEq]
        exact h.1.1

theorem strlen_le_length (b : List Char) : strlen (b ++ [NUL]) ≤ b.length := by
  induction b with
  | nil => simp [strlen]
  | cons c b ih =>
    by_cases hc : c = NUL
    · simp [strlen, hc]
    · have : strlen (c :: b ++ [NUL]) = strlen (b ++ [NUL]) + 1 := by
        simp [strlen, List.takeWhile_cons, hc]
      rw [this]
      simpa using ih

/-- Whenever the bounded read succeeds the length of the string in the buffer
is at most 511, and it is at least 1 unless the stream starts with a NUL
character. -/
theorem strlen_after_fgets (s buf rest : List Char) (h : fgets 512 s = some (buf, rest)) :
    strlen buf ≤ 511 ∧ (s.head? ≠ some NUL → 1 ≤ strlen buf) := by
  unfold fgets at h
  have hlen := fgetsChars_length 511 s
  rcases hf : fgetsChars (512 - 1) s with ⟨b, r⟩
  rw [show 512 - 1 = 511 from rfl] at hf
  rw [hf] at hlen
  cases b with
  | nil => simp [hf] at h
  | cons c b =>
    simp only [hf, Option.some.injEq, Prod.mk.injEq] at h
    obtain ⟨hbuf, _⟩ := h
    subst hbuf
    refine ⟨le_trans (strlen_le_length (c :: b)) hlen, fun hhead => ?_⟩
    have hc : c ≠ NUL := fun e => hhead (by rw [fgetsChars_head 511 s b r c hf, e])
    simp [strlen, List.takeWhile_cons, hc]

theorem strlen_after_fgets_witness :
    strlen "alice\n\x00".toList ≤ 511
      ∧ ("alice\nbob\n".toList.head? ≠ some NUL → 1 ≤ strlen "alice\n\x00".toList) :=
  strlen_after_fgets "alice\nbob\n".toList "alice\n\x00".toList "bob\n".toList (by decide)

/-! ## The assertion of the Preauth persona -/

/-- C20, at the failing input: invoked as `duo_cosign_preauth` without any
argument, `main` calls `dc_exec_preauth` with `argc = 0`, the assertion
`argc >= 1` fails and the process aborts. -/
theorem main_preauth_no_argument :
    main env0 ["/usr/local/bin/duo_cosign_preauth".toList] ⟨[], [], []⟩
        = .abort ⟨[], [], [.curl_global_init 0, .exec_fn "duo_cosign_preauth".toList]⟩
      ∧ ∀ (env : Env) (cfg : dc_cfg_entry_t) (flags : Int) (st : State),
          dc_exec_preauth env [] cfg flags st = .abort st :=
  ⟨by decide, fun _ _ _ _ => rfl⟩

/-! ## The lines written to `stdout` -/

theorem stdout_lines_from_line (cur l rest : List Char) (hnl : '\n' ∉ l) :
    stdout_lines_from cur (l ++ '\n' :: rest) = (cur ++ l) :: stdout_lines_from [] rest := by
  induction l generalizing cur with
  | nil => simp [stdout_lines_from]
  | cons c l ih =>
    have hc : c ≠ '\n' := fun e => hnl (by simp [e])
    have hl : '\n' ∉ l := fun e => hnl (by simp [e])
    have hstep : stdout_lines_from cur (c :: l ++ '\n' :: rest)
        = stdout_lines_from (cur ++ [c]) (l ++ '\n' :: rest) := by
      show stdout_lines_from cur (c :: (l ++ '\n' :: rest)) = _
      simp only [stdout_lines_from, if_neg hc]
    rw [hstep, ih (cur ++ [c]) hl]
    simp

/-- A terminated line without a newline in it is the first line of the
stream. -/
theorem stdout_lines_line (l rest : List Char) (hnl : '\n' ∉ l) :
    stdout_lines (l ++ '\n' :: rest) = l :: stdout_lines rest := by
  unfold stdout_lines
  rw [stdout_lines_from_line [] l rest hnl]
  rfl

theorem is_variable_line_dollar (a j : List Char) (ha : '=' ∈ a) :
    is_variable_line ('$' :: a ++ j) = true := by
  simp [is_variable_line, ha]

theorem not_variable_line_of_head (l : List Char) (h : l.head? ≠ some '$') :
    is_variable_line l = false := by
  simp [is_variable_line, h]

theorem toDigitsCore_chars (P : Char → Prop) (hd : ∀ d, d < 10 → P (Nat.digitChar d))
    (fuel n : Nat) (ds : List Char) (hds : ∀ c ∈ ds, P c) :
    ∀ c ∈ Nat.toDigitsCore 10 fuel n ds, P c := by
  induction fuel generalizing n ds with
  | zero => simpa [Nat.toDigitsCore] using hds
  | succ fuel ih =>
    have hcons : ∀ c ∈ Nat.digitChar (n % 10) :: ds, P c := by
      intro c hc
      rcases List.mem_cons.mp hc with rfl | h
      · exact hd _ (Nat.mod_lt _ (by decide))
      · exact hds c h
    unfold Nat.toDigitsCore
    by_cases h0 : n / 10 = 0
    · simpa [h0] using hcons
    · simp only [h0, if_false]
      exact ih (n / 10) _ hcons

theorem digitChar_plain (d : Nat) (hd : d < 10) :
    Nat.digitChar d ≠ '\n' ∧ Nat.digitChar d ≠ '$' := by
  interval_cases d <;> decide

/-- The decimal representation of a timestamp holds neither a newline nor a
dollar sign. -/
theorem toString_int_chars (t : Int) :
    ∀ c ∈ (toString t).toList, c ≠ '\n' ∧ c ≠ '$' := by
  cases t with
  | ofNat m =>
    show ∀ c ∈ (Nat.repr m).toList, c ≠ '\n' ∧ c ≠ '$'
    exact toDigitsCore_chars (fun c => c ≠ '\n' ∧ c ≠ '$') digitChar_plain _ _ _ (by simp)
  | negSucc m =>
    show ∀ c ∈ ("-" ++ Nat.repr (m + 1)).toList, c ≠ '\n' ∧ c ≠ '$'
    intro c hc
    have : c ∈ '-' :: (Nat.toDigits 10 (m + 1)) := by simpa [Nat.repr] using hc
    rcases List.mem_cons.mp this with rfl | h
    · decide
    · exact toDigitsCore_chars (fun c => c ≠ '\n' ∧ c ≠ '$') digitChar_plain _ _ _
        (by simp) c h

/-- The lines `dc_exec_preauth` writes, case by case. -/
theorem dc_exec_preauth_lines (env : Env) (user : CStr) (more : List CStr)
    (cfg : dc_cfg_entry_t) (flags : Int) :
    ∃ (rc : Int) (lines : List Char),
      (∀ (i o : List Char) (t : List Event),
        dc_exec_preauth env (user :: more) cfg flags ⟨i, o, t⟩
          = .ret rc ⟨i, o ++ lines, t ++ [.dc_preauth user]⟩)
      ∧ (lines = "Access denied\n".toList ∨ lines = []
        ∨ ∃ devices j, env.dc_device_list_json_serialize devices = some j
            ∧ ((Int.land flags DC_EXEC_MODE_USERFACTOR = 0
                ∧ lines = '$' :: "duo_devices_json=".toList ++ j ++ ['\n'])
              ∨ (Int.land flags DC_EXEC_MODE_USERFACTOR ≠ 0
                ∧ lines = '$' :: "duo_devices_json=".toList ++ j ++ ['\n']
                    ++ (factor_name_or_default env cfg ++ ['\n'])))) := by
  rcases h : env.dc_preauth cfg user with ⟨status, presult⟩
  cases status
  case DC_STATUS_AUTH_REQUIRED =>
    cases hj : env.dc_device_list_json_serialize presult.devices with
    | none =>
      exact ⟨1, "Access denied\n".toList, fun i o t => by
        simp only [dc_exec_preauth, h, hj, printf, record], Or.inl rfl⟩
    | some j =>
      by_cases hfl : Int.land flags DC_EXEC_MODE_USERFACTOR = 0
      · exact ⟨0, '$' :: "duo_devices_json=".toList ++ j ++ ['\n'], fun i o t => by
          simp only [dc_exec_preauth, h, hj, printf, record, hfl, ne_eq, not_true_eq_false,
            if_false]
          rfl,
          Or.inr (Or.inr ⟨_, j, hj, Or.inl ⟨hfl, rfl⟩⟩)⟩
      · exact ⟨0, '$' :: "duo_devices_json=".toList ++ j ++ ['\n']
            ++ (factor_name_or_default env cfg ++ ['\n']), fun i o t => by
          simp only [dc_exec_preauth, h, hj, printf, record, ne_eq, hfl, not_false_eq_true,
            if_true, List.append_assoc]
          rfl,
          Or.inr (Or.inr ⟨_, j, hj, Or.inr ⟨hfl, rfl⟩⟩)⟩
  case DC_STATUS_USER_ALLOWED =>
    exact ⟨0, [], fun i o t => by
      simp only [dc_exec_preauth, h, record, List.append_nil], Or.inr (Or.inl rfl)⟩
  case DC_STATUS_USER_NOT_ENROLLED =>
    exact ⟨0, [], fun i o t => by
      simp only [dc_exec_preauth, h, record, List.append_nil], Or.inr (Or.inl rfl)⟩
  all_goals
    exact ⟨1, "Access denied\n".toList, fun i o t => by
      simp only [dc_exec_preauth, h, printf, record], Or.inl rfl⟩

theorem not_mem_append_of (c : Char) (a j : List Char) (ha : c ∉ a) (hj : c ∉ j) :
    c ∉ a ++ j := by
  simp [ha, hj]

theorem head_ne_of_forall_ne (l : List Char) (c : Char) (h : ∀ x ∈ l, x ≠ c) :
    l.head? ≠ some c := by
  cases l with
  | nil => simp
  | cons x l =>
    intro e
    exact h x (List.mem_cons_self _ _) (by simpa using e)

theorem stdout_lines_devices (j rest : List Char) (hj : '\n' ∉ j) :
    stdout_lines ('$' :: "duo_devices_json=".toList ++ j ++ '\n' :: rest)
      = ('$' :: "duo_devices_json=".toList ++ j) :: stdout_lines rest :=
  stdout_lines_line _ rest (not_mem_append_of _ _ _ (by decide) hj)

/-- The lines of `dc_exec_preauth` are variable lines followed by at most one
status line; without the UserFactor bit no line is a bare name. -/
theorem preauth_lines_shape (env : Env) (cfg : dc_cfg_entry_t) (flags : Int)
    (lines : List Char)
    (hnl : '\n' ∉ factor_name_or_default env cfg)
    (hjson : ∀ devices j, env.dc_device_list_json_serialize devices = some j → '\n' ∉ j)
    (hlines : lines = "Access denied\n".toList ∨ lines = []
        ∨ ∃ devices j, env.dc_device_list_json_serialize devices = some j
            ∧ ((Int.land flags DC_EXEC_MODE_USERFACTOR = 0
                ∧ lines = '$' :: "duo_devices_json=".toList ++ j ++ ['\n'])
              ∨ (Int.land flags DC_EXEC_MODE_USERFACTOR ≠ 0
                ∧ lines = '$' :: "duo_devices_json=".toList ++ j ++ ['\n']
                    ++ (factor_name_or_default env cfg ++ ['\n'])))) :
    protocol_shape_opt (stdout_lines lines) = true
      ∧ (Int.land flags DC_EXEC_MODE_USERFACTOR = 0 →
          ∀ n : List Char, n ∉ fixed_phrases → n.head? ≠ some '$' →
            n ∉ stdout_lines lines) := by
  rcases hlines with rfl | rfl | ⟨devices, j, hj, ⟨hfl, rfl⟩ | ⟨hfl, rfl⟩⟩
  · refine ⟨by decide, fun _ n hn _ hmem => ?_⟩
    have hl : stdout_lines "Access denied\n".toList = ["Access denied".toList] := by decide
    rw [hl, List.mem_singleton] at hmem
    exact hn (by rw [hmem]; decide)
  · exact ⟨by decide, fun _ n _ _ hmem => by cases hmem⟩
  · have hl : stdout_lines ('$' :: "duo_devices_json=".toList ++ j ++ ['\n'])
        = ['$' :: "duo_devices_json=".toList ++ j] :=
      stdout_lines_devices j [] (hjson devices j hj)
    rw [hl]
    refine ⟨rfl, fun _ n _ hhead hmem => ?_⟩
    rw [List.mem_singleton] at hmem
    exact hhead (by rw [hmem]; rfl)
  · have hl : stdout_lines ('$' :: "duo_devices_json=".toList ++ j ++ ['\n']
          ++ (factor_name_or_default env cfg ++ ['\n']))
        = ['$' :: "duo_devices_json=".toList ++ j, factor_name_or_default env cfg] := by
      have h1 : '$' :: "duo_devices_json=".toList ++ j ++ ['\n']
            ++ (factor_name_or_default env cfg ++ ['\n'])
          = '$' :: "duo_devices_json=".toList ++ j
            ++ '\n' :: (factor_name_or_default env cfg ++ '\n' :: []) := by
        simp
      rw [h1, stdout_lines_devices j _ (hjson devices j hj), stdout_lines_line _ [] hnl]
      rfl
    rw [hl]
    refine ⟨?_, fun h0 => absurd h0 hfl⟩
    simp only [protocol_shape_opt, Bool.and_true]
    exact is_variable_line_dollar _ j (by decide)

/-- The lines the `switch` of `dc_exec_auth` writes, case by case. -/
theorem dc_exec_auth_switch_lines (env : Env) (cfg : dc_cfg_entry_t) (auth : dc_auth_t) :
    ∃ (rc : Int) (lines : List Char) (evs : List Event),
      (∀ (i o : List Char) (t : List Event),
        dc_exec_auth_switch env cfg auth ⟨i, o, t⟩ = .ret rc ⟨i, o ++ lines, t ++ evs⟩)
      ∧ (((env.dc_auth cfg auth).1 = .DC_STATUS_USER_ALLOWED
            ∧ lines = factor_name_or_default env cfg ++ ['\n'])
        ∨ ((env.dc_auth cfg auth).1 = .DC_STATUS_AUTH_PENDING
            ∧ (env.dc_auth cfg auth).2.txid = none
            ∧ lines = "Authentication failed\n".toList)
        ∨ ((env.dc_auth cfg auth).1 = .DC_STATUS_AUTH_PENDING
            ∧ ∃ txid, (env.dc_auth cfg auth).2.txid = some txid
              ∧ lines = '$' :: "duo_auth_type=".toList ++ auth.factor
                  ++ '\n' :: ('$' :: "duo_txid=".toList ++ txid
                  ++ '\n' :: "Authentication pending\n".toList))
        ∨ ((env.dc_auth cfg auth).1 ≠ .DC_STATUS_USER_ALLOWED
            ∧ (env.dc_auth cfg auth).1 ≠ .DC_STATUS_AUTH_PENDING
            ∧ ∃ plines, lines = "Authentication failed".toList ++ '\n' :: plines
              ∧ (plines = "Access denied\n".toList ∨ plines = []
                ∨ ∃ devices j, env.dc_device_list_json_serialize devices = some j
                  ∧ ((Int.land DC_EXEC_MODE_DEFAULT DC_EXEC_MODE_USERFACTOR = 0
                      ∧ plines = '$' :: "duo_devices_json=".toList ++ j ++ ['\n'])
                    ∨ (Int.land DC_EXEC_MODE_DEFAULT DC_EXEC_MODE_USERFACTOR ≠ 0
                      ∧ plines = '$' :: "duo_devices_json=".toList ++ j ++ ['\n']
                          ++ (factor_name_or_default env cfg ++ ['\n'])))))) := by
  obtain ⟨rc2, plines, hpre, hpl⟩ :=
    dc_exec_preauth_lines env auth.user [] cfg DC_EXEC_MODE_DEFAULT
  rcases h : env.dc_auth cfg auth with ⟨status, aresult⟩
  cases status
  case DC_STATUS_USER_ALLOWED =>
    exact ⟨0, _, [.dc_auth auth.user auth.factor auth.data], fun i o t => by
      simp only [dc_exec_auth_switch, h, printf, record], Or.inl ⟨rfl, rfl⟩⟩
  case DC_STATUS_AUTH_PENDING =>
    cases htx : aresult.txid with
    | none =>
      exact ⟨1, _, [.dc_auth auth.user auth.factor auth.data], fun i o t => by
        simp only [dc_exec_auth_switch, h, htx, printf, record],
        Or.inr (Or.inl ⟨rfl, rfl, rfl⟩)⟩
    | some txid =>
      refine ⟨1, _, [.dc_auth auth.user auth.factor auth.data], fun i o t => ?_,
        Or.inr (Or.inr (Or.inl ⟨rfl, txid, rfl, rfl⟩))⟩
      simp only [dc_exec_auth_switch, h, htx, printf, record, List.append_assoc]
      simp
  all_goals
    refine ⟨1, "Authentication failed".toList ++ '\n' :: plines,
      [.dc_auth auth.user auth.factor auth.data, .dc_preauth auth.user], fun i o t => ?_,
      Or.inr (Or.inr (Or.inr ⟨by simp, by simp, plines, rfl, hpl⟩))⟩
    simp only [dc_exec_auth_switch, h, printf, record, hpre, Outcome.bind]
    simp

/-- When `dc_exec_auth` returns, `stdin` began with three well-formed lines
and the return is that of the `switch` on the request made of them. -/
theorem dc_exec_auth_ret (env : Env) (argv : List CStr) (cfg : dc_cfg_entry_t)
    (flags : Int) (s o : List Char) (t : List Event) (rc : Int) (st2 : State)
    (h : dc_exec_auth env argv cfg flags ⟨s, o, t⟩ = .ret rc st2) :
    ∃ user factor data rest,
      s = user ++ '\n' :: (factor ++ '\n' :: (data ++ '\n' :: rest))
      ∧ FieldWithin 510 user ∧ FieldWithin 510 factor ∧ FieldWithin 510 data
      ∧ dc_exec_auth_switch env cfg ⟨user, factor, data⟩ ⟨rest, o, t⟩ = .ret rc st2 := by
  unfold dc_exec_auth at h
  cases h1 : dc_read_input_line ⟨s, o, t⟩ with
  | undefined => rw [h1] at h; cases h
  | abort s1 => rw [h1] at h; cases h
  | exit c s1 => rw [h1] at h; cases h
  | ret user s1 =>
    obtain ⟨r1, hs1, hu, rfl⟩ := dc_read_input_line_ret s o user t s1 h1
    rw [h1] at h
    simp only [Outcome.bind] at h
    cases h2 : dc_read_input_line ⟨r1, o, t⟩ with
    | undefined => rw [h2] at h; cases h
    | abort s2 => rw [h2] at h; cases h
    | exit c s2 => rw [h2] at h; cases h
    | ret factor s2 =>
      obtain ⟨r2, hs2, hf, rfl⟩ := dc_read_input_line_ret r1 o factor t s2 h2
      rw [h2] at h
      simp only [Outcome.bind] at h
      cases h3 : dc_read_input_line ⟨r2, o, t⟩ with
      | undefined => rw [h3] at h; cases h
      | abort s3 => rw [h3] at h; cases h
      | exit c s3 => rw [h3] at h; cases h
      | ret data s3 =>
        obtain ⟨r3, hs3, hd, rfl⟩ := dc_read_input_line_ret r2 o data t s3 h3
        rw [h3] at h
        simp only [Outcome.bind] at h
        exact ⟨user, factor, data, r3, by rw [hs1, hs2, hs3], hu, hf, hd, h⟩

theorem stdout_lines_pending (factor txid : List Char) (hf : '\n' ∉ factor)
    (ht : '\n' ∉ txid) :
    stdout_lines ('$' :: "duo_auth_type=".toList ++ factor
        ++ '\n' :: ('$' :: "duo_txid=".toList ++ txid
        ++ '\n' :: "Authentication pending\n".toList))
      = ['$' :: "duo_auth_type=".toList ++ factor, '$' :: "duo_txid=".toList ++ txid,
          "Authentication pending".toList] := by
  have hlast : stdout_lines "Authentication pending\n".toList
      = ["Authentication pending".toList] := by decide
  rw [stdout_lines_line _ _ (not_mem_append_of _ _ _ (by decide) hf),
    stdout_lines_line _ _ (not_mem_append_of _ _ _ (by decide) ht), hlast]

theorem stdout_lines_failed (plines : List Char) :
    stdout_lines ("Authentication failed".toList ++ '\n' :: plines)
      = "Authentication failed".toList :: stdout_lines plines :=
  stdout_lines_line _ plines (by decide)

/-- The two outcomes on which `dc_exec_preauth` writes nothing. -/
theorem dc_exec_preauth_no_output (env : Env) (user : CStr) (more : List CStr)
    (cfg : dc_cfg_entry_t) (flags : Int) (i o : List Char) (t : List Event)
    (hst : (env.dc_preauth cfg user).1 = .DC_STATUS_USER_ALLOWED
      ∨ (env.dc_preauth cfg user).1 = .DC_STATUS_USER_NOT_ENROLLED) :
    dc_exec_preauth env (user :: more) cfg flags ⟨i, o, t⟩
      = .ret 0 ⟨i, o, t ++ [.dc_preauth user]⟩ := by
  rcases h : env.dc_preauth cfg user with ⟨status, presult⟩
  rw [h] at hst
  rcases hst with hst | hst <;> simp only at hst <;> subst hst <;>
    simp only [dc_exec_preauth, h, record]

/-- The lines `dc_exec_preauth` writes when authentication is required and the
device list serializes. -/
theorem dc_exec_preauth_devices (env : Env) (user : CStr) (more : List CStr)
    (cfg : dc_cfg_entry_t) (flags : Int) (i o : List Char) (t : List Event) (j : CStr)
    (hst : (env.dc_preauth cfg user).1 = .DC_STATUS_AUTH_REQUIRED)
    (hj : env.dc_device_list_json_serialize (env.dc_preauth cfg user).2.devices = some j) :
    (Int.land flags DC_EXEC_MODE_USERFACTOR = 0 →
        dc_exec_preauth env (user :: more) cfg flags ⟨i, o, t⟩
          = .ret 0 ⟨i, o ++ ('$' :: "duo_devices_json=".toList ++ j ++ '\n' :: []),
              t ++ [.dc_preauth user]⟩)
      ∧ (Int.land flags DC_EXEC_MODE_USERFACTOR ≠ 0 →
        dc_exec_preauth env (user :: more) cfg flags ⟨i, o, t⟩
          = .ret 0 ⟨i, o ++ ('$' :: "duo_devices_json=".toList ++ j
                ++ '\n' :: (factor_name_or_default env cfg ++ '\n' :: [])),
              t ++ [.dc_preauth user]⟩) := by
  rcases h : env.dc_preauth cfg user with ⟨status, presult⟩
  rw [h] at hst hj
  simp only at hst hj
  subst hst
  refine ⟨fun hfl => ?_, fun hfl => ?_⟩
  · simp only [dc_exec_preauth, h, hj, printf, record, hfl, ne_eq, not_true_eq_false,
      if_false]
    rfl
  · simp only [dc_exec_preauth, h, hj, printf, record, ne_eq, hfl, not_false_eq_true,
      if_true, List.append_assoc]
    simp

/-- On an outcome that is neither Allowed nor Pending the `switch` of
`dc_exec_auth` writes `Authentication failed`, then what the recovery call of
`dc_exec_preauth` writes, and returns 1. -/
theorem dc_exec_auth_switch_failure (env : Env) (cfg : dc_cfg_entry_t) (auth : dc_auth_t)
    (rc2 : Int) (plines : List Char)
    (hna : (env.dc_auth cfg auth).1 ≠ .DC_STATUS_USER_ALLOWED)
    (hnp : (env.dc_auth cfg auth).1 ≠ .DC_STATUS_AUTH_PENDING)
    (hpre : ∀ (i o : List Char) (t : List Event),
      dc_exec_preauth env [auth.user] cfg DC_EXEC_MODE_DEFAULT ⟨i, o, t⟩
        = .ret rc2 ⟨i, o ++ plines, t ++ [.dc_preauth auth.user]⟩)
    (i o : List Char) (t : List Event) :
    dc_exec_auth_switch env cfg auth ⟨i, o, t⟩
      = .ret 1 ⟨i, o ++ ("Authentication failed".toList ++ '\n' :: plines),
          t ++ [.dc_auth auth.user auth.factor auth.data, .dc_preauth auth.user]⟩ := by
  rcases h : env.dc_auth cfg auth with ⟨status, aresult⟩
  rw [h] at hna hnp
  cases status
  case DC_STATUS_USER_ALLOWED => exact absurd rfl hna
  case DC_STATUS_AUTH_PENDING => exact absurd rfl hnp
  all_goals
    simp only [dc_exec_auth_switch, h, printf, record, hpre, Outcome.bind]
    simp

/-- C14 fails as stated: the Preauth persona on a user who bypasses the second
factor returns with no line at all; under `DC_EXEC_MODE_DEFAULT` it writes the
variable line of the device list and no status line; and the Auth persona on a
denied authentication writes a variable line after its status line. -/
theorem stdout_shape_violated :
    dc_exec_preauth env_bypass ["alice".toList] [] DC_EXEC_MODE_PREAUTH_DEFAULT ⟨[], [], []⟩
        = .ret 0 ⟨[], [], [.dc_preauth "alice".toList]⟩
      ∧ protocol_shape (stdout_lines []) = false
      ∧ dc_exec_preauth env0 ["alice".toList] [] DC_EXEC_MODE_DEFAULT ⟨[], [], []⟩
        = .ret 0 ⟨[], "$duo_devices_json=[]\n".toList, [.dc_preauth "alice".toList]⟩
      ∧ protocol_shape (stdout_lines "$duo_devices_json=[]\n".toList) = false
      ∧ dc_exec_auth env_denied [] [] 0 ⟨stdin_alice, [], []⟩
        = .ret 1 ⟨[], "Authentication failed\n$duo_devices_json=[]\n".toList,
            [.dc_auth "alice".toList "push".toList "phone1".toList,
             .dc_preauth "alice".toList]⟩
      ∧ stdout_lines "Authentication failed\n$duo_devices_json=[]\n".toList
        = ["Authentication failed".toList, "$duo_devices_json=[]".toList]
      ∧ protocol_shape (stdout_lines "Authentication failed\n$duo_devices_json=[]\n".toList)
        = false := by
  decide

/-- C14, amended: with a factor name, transaction ids and device JSON that
hold no newline, and a factor name that does not start with `$`, the output of
a handler that returns is as follows.  Ping and Check, and Auth on an Allowed
or Pending outcome: zero or more variable lines followed by exactly one status
line.  Preauth, which returns whenever it has an argument: no line on
UserAllowed and UserNotEnrolled; the single variable line
`$duo_devices_json=<json>` and no status line on AuthRequired without
UserFactor; that variable line followed by the factor name as the one status
line on AuthRequired with UserFactor; the single status line `Access denied`
on UserDenied, on any other status and on a failed serialization.  Auth on
every other outcome: the status line `Authentication failed` followed by
exactly the lines of the recovery call of Preauth under
`DC_EXEC_MODE_DEFAULT`, in which the UserFactor bit is clear. -/
theorem stdout_shape (env : Env) (cfg : dc_cfg_entry_t)
    (hnl : '\n' ∉ factor_name_or_default env cfg)
    (hhead : (factor_name_or_default env cfg).head? ≠ some '$')
    (htxid : ∀ auth t, (env.dc_auth cfg auth).2.txid = some t → '\n' ∉ t)
    (hjson : ∀ devices j, env.dc_device_list_json_serialize devices = some j → '\n' ∉ j) :
    (∀ (argv : List CStr) (flags : Int) (i : List Char) (tr : List Event) (rc : Int)
        (s : State),
        (dc_exec_ping env argv cfg flags ⟨i, [], tr⟩ = .ret rc s
          ∨ dc_exec_check env argv cfg flags ⟨i, [], tr⟩ = .ret rc s) →
        protocol_shape (stdout_lines s.stdout) = true)
      ∧ (∀ (user : CStr) (more : List CStr) (flags : Int) (i : List Char)
          (tr : List Event),
          ∃ (rc : Int) (s : State),
            dc_exec_preauth env (user :: more) cfg flags ⟨i, [], tr⟩ = .ret rc s
            ∧ (((env.dc_preauth cfg user).1 = .DC_STATUS_USER_ALLOWED
                ∨ (env.dc_preauth cfg user).1 = .DC_STATUS_USER_NOT_ENROLLED) →
              stdout_lines s.stdout = [])
            ∧ (∀ j, (env.dc_preauth cfg user).1 = .DC_STATUS_AUTH_REQUIRED →
                env.dc_device_list_json_serialize (env.dc_preauth cfg user).2.devices
                  = some j →
                (Int.land flags DC_EXEC_MODE_USERFACTOR = 0 →
                  stdout_lines s.stdout = ['$' :: "duo_devices_json=".toList ++ j]
                  ∧ is_variable_line ('$' :: "duo_devices_json=".toList ++ j) = true)
                ∧ (Int.land flags DC_EXEC_MODE_USERFACTOR ≠ 0 →
                  stdout_lines s.stdout
                    = ['$' :: "duo_devices_json=".toList ++ j,
                        factor_name_or_default env cfg]
                  ∧ protocol_shape (stdout_lines s.stdout) = true))
            ∧ (((env.dc_preauth cfg user).1 = .DC_STATUS_USER_DENIED
                ∨ ((env.dc_preauth cfg user).1 ≠ .DC_STATUS_AUTH_REQUIRED
                    ∧ (env.dc_preauth cfg user).1 ≠ .DC_STATUS_USER_ALLOWED
                    ∧ (env.dc_preauth cfg user).1 ≠ .DC_STATUS_USER_DENIED
                    ∧ (env.dc_preauth cfg user).1 ≠ .DC_STATUS_USER_NOT_ENROLLED)
                ∨ ((env.dc_preauth cfg user).1 = .DC_STATUS_AUTH_REQUIRED
                    ∧ env.dc_device_list_json_serialize
                        (env.dc_preauth cfg user).2.devices = none)) →
              stdout_lines s.stdout = ["Access denied".toList]
              ∧ protocol_shape (stdout_lines s.stdout) = true))
      ∧ (∀ (argv : List CStr) (flags : Int) (i : List Char) (tr : List Event) (rc : Int)
          (s : State),
          dc_exec_auth env argv cfg flags ⟨i, [], tr⟩ = .ret rc s →
          ∃ user factor data rest,
            i = user ++ '\n' :: (factor ++ '\n' :: (data ++ '\n' :: rest))
            ∧ (((env.dc_auth cfg ⟨user, factor, data⟩).1 = .DC_STATUS_USER_ALLOWED
                ∨ (env.dc_auth cfg ⟨user, factor, data⟩).1 = .DC_STATUS_AUTH_PENDING) →
              protocol_shape (stdout_lines s.stdout) = true)
            ∧ (((env.dc_auth cfg ⟨user, factor, data⟩).1 ≠ .DC_STATUS_USER_ALLOWED
                ∧ (env.dc_auth cfg ⟨user, factor, data⟩).1 ≠ .DC_STATUS_AUTH_PENDING) →
              ∃ (rc2 : Int) (s2 : State),
                dc_exec_preauth env [user] cfg DC_EXEC_MODE_DEFAULT
                    ⟨rest, [], tr ++ [.dc_auth user factor data]⟩ = .ret rc2 s2
                ∧ stdout_lines s.stdout
                  = "Authentication failed".toList :: stdout_lines s2.stdout))
      ∧ Int.land DC_EXEC_MODE_DEFAULT DC_EXEC_MODE_USERFACTOR = 0 := by
  have hstamp : ∀ t : Int, protocol_shape (stdout_lines ([] ++ fmt_ld t)) = true := by
    intro t
    have hc := toString_int_chars t
    have hl : stdout_lines ([] ++ fmt_ld t) = [(toString t).toList] :=
      stdout_lines_line _ [] (fun e => (hc _ e).1 rfl)
    rw [hl]
    simp only [protocol_shape, Bool.not_eq_true']
    exact not_variable_line_of_head _ (head_ne_of_forall_ne _ _ (fun x hx => (hc x hx).2))
  refine ⟨?_, ?_, ?_, by decide⟩
  · intro argv flags i tr rc s h
    rcases h with h | h
    · simp only [dc_exec_ping] at h
      split_ifs at h
      cases h
      exact hstamp _
    · simp only [dc_exec_check] at h
      split_ifs at h
      cases h
      exact hstamp _
  · intro user more flags i tr
    obtain ⟨rc, lines, hpre⟩ := dc_exec_preauth_returns env user more cfg flags
    refine ⟨rc, _, hpre i [] tr, fun hst => ?_, fun j hst hj => ⟨fun hfl => ?_, fun hfl => ?_⟩,
      fun hst => ?_⟩
    · have heq := dc_exec_preauth_no_output env user more cfg flags i [] tr hst
      rw [hpre] at heq
      simp only [Outcome.ret.injEq, State.mk.injEq, List.nil_append] at heq
      simp only [List.nil_append, heq.2.2.1]
      rfl
    · have heq := (dc_exec_preauth_devices env user more cfg flags i [] tr j hst hj).1 hfl
      rw [hpre] at heq
      simp only [Outcome.ret.injEq, State.mk.injEq, List.nil_append] at heq
      simp only [List.nil_append, heq.2.2.1]
      exact ⟨stdout_lines_devices j [] (hjson _ j hj),
        is_variable_line_dollar _ j (by decide)⟩
    · have heq := (dc_exec_preauth_devices env user more cfg flags i [] tr j hst hj).2 hfl
      rw [hpre] at heq
      simp only [Outcome.ret.injEq, State.mk.injEq, List.nil_append] at heq
      have hl : stdout_lines ('$' :: "duo_devices_json=".toList ++ j
            ++ '\n' :: (factor_name_or_default env cfg ++ '\n' :: []))
          = ['$' :: "duo_devices_json=".toList ++ j, factor_name_or_default env cfg] := by
        rw [stdout_lines_devices j _ (hjson _ j hj), stdout_lines_line _ [] hnl]
        rfl
      simp only [List.nil_append, heq.2.2.1, hl, protocol_shape, Bool.and_eq_true,
        Bool.not_eq_true', true_and]
      exact ⟨is_variable_line_dollar _ j (by decide), not_variable_line_of_head _ hhead⟩
    · have heq := dc_exec_preauth_access_denied env user more cfg flags i [] tr hst
      rw [hpre] at heq
      simp only [Outcome.ret.injEq, State.mk.injEq, List.nil_append] at heq
      simp only [List.nil_append, heq.2.2.1]
      exact ⟨by decide, by decide⟩
  · intro argv flags i tr rc s h
    obtain ⟨user, factor, data, rest, hi, hu, hf, hd, hsw⟩ :=
      dc_exec_auth_ret env argv cfg flags i [] tr rc s h
    refine ⟨user, factor, data, rest, hi, ?_, ?_⟩
    · intro hst
      obtain ⟨rc2, lines, evs, hrun, hcase⟩ :=
        dc_exec_auth_switch_lines env cfg ⟨user, factor, data⟩
      rw [hrun] at hsw
      cases hsw
      simp only [List.nil_append]
      rcases hcase with ⟨_, rfl⟩ | ⟨_, _, rfl⟩ | ⟨_, txid, htx, rfl⟩ | ⟨hna, hnp, _⟩
      · have hl : stdout_lines (factor_name_or_default env cfg ++ ['\n'])
            = [factor_name_or_default env cfg] := stdout_lines_line _ [] hnl
        rw [hl]
        simp only [protocol_shape, Bool.not_eq_true']
        exact not_variable_line_of_head _ hhead
      · decide
      · rw [stdout_lines_pending factor txid hf.1 (htxid _ txid htx)]
        simp only [protocol_shape, Bool.and_eq_true, Bool.not_eq_true']
        exact ⟨is_variable_line_dollar _ factor (by decide),
          is_variable_line_dollar _ txid (by decide), by decide⟩
      · rcases hst with hst | hst
        · exact absurd hst hna
        · exact absurd hst hnp
    · intro hst
      obtain ⟨rc2, plines, hpre⟩ :=
        dc_exec_preauth_returns env user [] cfg DC_EXEC_MODE_DEFAULT
      rw [dc_exec_auth_switch_failure env cfg ⟨user, factor, data⟩ rc2 plines hst.1 hst.2
        hpre] at hsw
      cases hsw
      refine ⟨rc2, _, hpre rest [] _, ?_⟩
      simp only [List.nil_append]
      exact stdout_lines_failed plines

theorem stdout_shape_witness :
    protocol_shape (stdout_lines "1700000000\n".toList) = true
      ∧ ∃ (rc : Int) (s : State),
          dc_exec_preauth env_bypass ["alice".toList] [] DC_EXEC_MODE_PREAUTH_DEFAULT
              ⟨[], [], []⟩ = .ret rc s
          ∧ stdout_lines s.stdout = [] :=
  have h := stdout_shape env_bypass [] (by decide) (by decide)
    (fun _ t ht => by cases ht; decide) (fun _ j hj => by cases hj; decide)
  ⟨h.1 [] 0 [] [] 0 ⟨[], "1700000000\n".toList, [.dc_ping]⟩ (Or.inl (by decide)),
   (h.2.1 "alice".toList [] DC_EXEC_MODE_PREAUTH_DEFAULT [] []).imp
    fun _ hrc => hrc.imp fun _ hs => ⟨hs.1, hs.2.1 (Or.inl rfl)⟩⟩

/-! ## The factor-name line of the Auth persona -/

/-- C17 fails as stated: with a configured factor name that holds a newline,
is none of the fixed phrases and does not start with `$`, an Allowed outcome
writes two lines, none of which equals the factor name. -/
theorem factor_line_missing_when_allowed :
    factor_name_or_default env_two_line_name [] = "Duo\nPush".toList
      ∧ "Duo\nPush".toList ∉ fixed_phrases
      ∧ "Duo\nPush".toList.head? ≠ some '$'
      ∧ (∀ auth, env_two_line_name.dc_auth [] auth = (.DC_STATUS_USER_ALLOWED, ⟨none⟩))
      ∧ (∀ devices, env_two_line_name.dc_device_list_json_serialize devices
          = some "[]".toList)
      ∧ dc_exec_auth env_two_line_name [] [] 0 ⟨stdin_alice, [], []⟩
        = .ret 0 ⟨[], "Duo\nPush\n".toList,
            [.dc_auth "alice".toList "push".toList "phone1".toList]⟩
      ∧ stdout_lines "Duo\nPush\n".toList = ["Duo".toList, "Push".toList]
      ∧ "Duo\nPush".toList ∉ stdout_lines "Duo\nPush\n".toList :=
  ⟨by decide, by decide, by decide, fun _ => rfl, fun _ => rfl, by decide, by decide,
    by decide⟩

/-- C17, amended: with a factor name that holds no newline, is none of the
fixed phrases and does not start with `$`, and transaction ids and device JSON
that hold no newline, the output of `dc_exec_auth` on a request read from
`stdin` has a line equal to the factor name if and only if the authenticate
outcome is Allowed. -/
theorem factor_line_iff_allowed (env : Env) (argv : List CStr) (cfg : dc_cfg_entry_t)
    (flags : Int) (user factor data rest : List Char) (tr : List Event)
    (hu : FieldWithin 510 user) (hf : FieldWithin 510 factor)
    (hd : FieldWithin 510 data)
    (hphrase : factor_name_or_default env cfg ∉ fixed_phrases)
    (hhead : (factor_name_or_default env cfg).head? ≠ some '$')
    (hnl : '\n' ∉ factor_name_or_default env cfg)
    (htxid : ∀ auth t, (env.dc_auth cfg auth).2.txid = some t → '\n' ∉ t)
    (hjson : ∀ devices j, env.dc_device_list_json_serialize devices = some j → '\n' ∉ j) :
    ∃ (rc : Int) (s : State),
      dc_exec_auth env argv cfg flags
          ⟨user ++ '\n' :: (factor ++ '\n' :: (data ++ '\n' :: rest)), [], tr⟩ = .ret rc s
      ∧ (factor_name_or_default env cfg ∈ stdout_lines s.stdout
          ↔ (env.dc_auth cfg ⟨user, factor, data⟩).1 = .DC_STATUS_USER_ALLOWED) := by
  obtain ⟨rc2, lines, evs, hrun, hcase⟩ :=
    dc_exec_auth_switch_lines env cfg ⟨user, factor, data⟩
  refine ⟨rc2, _, by
    rw [dc_exec_auth_reads env argv cfg flags user factor data rest [] tr hu hf hd, hrun], ?_⟩
  simp only [List.nil_append]
  have hfailed : factor_name_or_default env cfg ≠ "Authentication failed".toList :=
    fun e => hphrase (by rw [e]; decide)
  rcases hcase with ⟨ha, rfl⟩ | ⟨hp, _, rfl⟩ | ⟨hp, txid, htx, rfl⟩
    | ⟨hna, _, plines, rfl, hpl⟩
  · rw [stdout_lines_line _ [] hnl]
    exact ⟨fun _ => ha, fun _ => List.mem_cons_self _ _⟩
  · have hl : stdout_lines "Authentication failed\n".toList
        = ["Authentication failed".toList] := by decide
    rw [hl, hp]
    refine ⟨fun hmem => ?_, fun e => by cases e⟩
    exact absurd (List.mem_singleton.mp hmem) hfailed
  · rw [stdout_lines_pending factor txid hf.1 (htxid _ txid htx), hp]
    refine ⟨fun hmem => ?_, fun e => by cases e⟩
    simp only [List.mem_cons, List.mem_singleton, List.not_mem_nil, or_false] at hmem
    rcases hmem with e | e | e
    · exact absurd (by rw [e]; rfl) hhead
    · exact absurd (by rw [e]; rfl) hhead
    · exact absurd (by rw [e]; decide) hphrase
  · rw [stdout_lines_failed plines]
    refine ⟨fun hmem => ?_, fun e => absurd e hna⟩
    rcases List.mem_cons.mp hmem with e | e
    · exact absurd e hfailed
    · exact absurd e ((preauth_lines_shape env cfg DC_EXEC_MODE_DEFAULT plines hnl hjson
        hpl).2 (by decide) _ hphrase hhead)

theorem factor_line_iff_allowed_witness :
    ∃ (rc : Int) (s : State),
      dc_exec_auth env_denied [] [] 0
          ⟨"alice".toList ++ '\n' :: ("push".toList ++ '\n' :: ("phone1".toList
            ++ '\n' :: [])), [], []⟩ = .ret rc s
      ∧ (factor_name_or_default env_denied [] ∈ stdout_lines s.stdout
          ↔ (env_denied.dc_auth [] ⟨"alice".toList, "push".toList, "phone1".toList⟩).1
              = .DC_STATUS_USER_ALLOWED) :=
  factor_line_iff_allowed env_denied [] [] 0 "alice".toList "push".toList "phone1".toList
    [] [] (by decide) (by decide) (by decide) (by decide) (by decide) (by decide)
    (fun _ t ht => by cases ht) (fun _ j hj => by cases hj; decide)

end DuoCosign
